import Mathlib

/-!
Verification development for the `conceptnet5.graph` module.

The module is shallowly embedded: Python unicode strings become `List Char`
(named `Str`), the Neo4j-backed graph becomes an explicit `Graph` state plus
state-passing functions, and fallible Python code (exceptions) returns
`Except Err`.  The embedded definitions keep the source's names (leading
underscores dropped).  The store adapter (`neo4jrestclient`) is external to
the repository; its operations are modelled after the spec's Store Adapter
interface: index queries are exact-match lookups, node/edge creation appends
to the state, property access on an absent key raises `KeyError`.
-/

/-- Python unicode strings are modelled as lists of characters. -/
abbrev Str := List Char

/-- Characters Python's `unicode.strip()` removes (the ASCII whitespace set;
the model restricts Python's unicode whitespace class to ASCII, which is all
the repository ever passes). -/
def pyIsSpace (c : Char) : Bool :=
  c = ' ' || c = '\t' || c = '\n' || c = '\x0d' || c = '\x0b' || c = '\x0c'

/-- Python `u.strip()`: drop leading and trailing whitespace. -/
def pyStrip (s : Str) : Str :=
  ((s.dropWhile pyIsSpace).reverse.dropWhile pyIsSpace).reverse

/-- `normalize_uri` (graph.py:87-101): strip surrounding whitespace and turn
internal spaces into underscores. -/
def normalize_uri (s : Str) : Str :=
  (pyStrip s).map (fun c => if c = ' ' then '_' else c)

/-- Hex digit characters used by Python's `'\u%04x'` escape (lowercase). -/
def lowerHexDigit (n : Nat) : Char :=
  "0123456789abcdef".toList.getD n '0'

/-- The two-character sequence a backslash escape denotes. -/
def escSeq (e : Char) : Str := ['\\', e]

/-- Escape of a single character performed by `json.dumps(·, ensure_ascii=False)`:
`"` and `\` are backslash-escaped, the five short control escapes are used for
backspace, formfeed, newline, carriage return and tab, any other control
character below U+0020 becomes `\u00xx`, and every other character (including
non-ASCII) is emitted verbatim. -/
def escapeJsonChar (c : Char) : Str :=
  if c = '"' then escSeq '"'
  else if c = '\\' then escSeq '\\'
  else if c = '\x08' then escSeq 'b'
  else if c = '\x0c' then escSeq 'f'
  else if c = '\n' then escSeq 'n'
  else if c = '\x0d' then escSeq 'r'
  else if c = '\t' then escSeq 't'
  else if c.toNat < 0x20 then
    escSeq 'u' ++ '0' :: '0' ::
      lowerHexDigit (c.toNat / 16) :: lowerHexDigit (c.toNat % 16) :: []
  else [c]

/-- A JSON string literal: the escaped content surrounded by double quotes. -/
def quoteJson (s : Str) : Str :=
  '"' :: s.flatMap escapeJsonChar ++ ['"']

/-- The items of a dumped JSON array joined by `json.dumps`'s default
item separator `", "`. -/
def dumpsItems : List Str → Str
  | [] => []
  | [s] => quoteJson s
  | s :: rest => quoteJson s ++ ',' :: ' ' :: dumpsItems rest

/-- `json.dumps(lst, ensure_ascii=False)` for a list of strings. -/
def json_dumps_list (lst : List Str) : Str :=
  '[' :: dumpsItems lst ++ [']']

/-- `list_to_uri_piece` (graph.py:19-33): dump the list as JSON and then
remove every space character from the result. -/
def list_to_uri_piece (lst : List Str) : Str :=
  (json_dumps_list lst).filter (fun c => c ≠ ' ')

/-- `make_assertion_uri` (graph.py:63-73). -/
def make_assertion_uri (relation_uri : Str) (arg_uri_list : List Str) : Str :=
  "/assertion/".toList ++
    list_to_uri_piece (relation_uri :: arg_uri_list)

/-- Numeric value of a hexadecimal digit, accepting both cases. -/
def hexVal (c : Char) : Option Nat :=
  let n := c.toNat
  if 48 ≤ n ∧ n ≤ 57 then some (n - 48)
  else if 97 ≤ n ∧ n ≤ 102 then some (n - 87)
  else if 65 ≤ n ∧ n ≤ 70 then some (n - 55)
  else none

/-- Parse the body of a JSON string literal (after the opening quote) up to and
including the closing quote, as `json.loads` does in its default strict mode:
backslash escapes are decoded, raw control characters are rejected.  Returns
the decoded content and the remaining input.  The recursion is indexed by
fuel; every step consumes at least one input character and the callers pass
more fuel than there are input characters, so the fuel never runs out. -/
def parseStringBody : Nat → Str → Option (Str × Str)
  | 0, _ => none
  | _ + 1, [] => none
  | fuel + 1, c :: rest =>
    if c = '"' then some ([], rest)
    else if c = '\\' then
      match rest with
      | [] => none
      | e :: r =>
        if e = '"' then (parseStringBody fuel r).map (fun p => ('"' :: p.1, p.2))
        else if e = '\\' then (parseStringBody fuel r).map (fun p => ('\\' :: p.1, p.2))
        else if e = '/' then (parseStringBody fuel r).map (fun p => ('/' :: p.1, p.2))
        else if e = 'b' then (parseStringBody fuel r).map (fun p => ('\x08' :: p.1, p.2))
        else if e = 'f' then (parseStringBody fuel r).map (fun p => ('\x0c' :: p.1, p.2))
        else if e = 'n' then (parseStringBody fuel r).map (fun p => ('\n' :: p.1, p.2))
        else if e = 'r' then (parseStringBody fuel r).map (fun p => ('\x0d' :: p.1, p.2))
        else if e = 't' then (parseStringBody fuel r).map (fun p => ('\t' :: p.1, p.2))
        else if e = 'u' then
          match r with
          | h1 :: h2 :: h3 :: h4 :: r2 =>
            match hexVal h1, hexVal h2, hexVal h3, hexVal h4 with
            | some a, some b, some c, some d =>
              (parseStringBody fuel r2).map
                (fun p => (Char.ofNat (((a * 16 + b) * 16 + c) * 16 + d) :: p.1, p.2))
            | _, _, _, _ => none
          | _ => none
        else none
    else if c.toNat < 0x20 then none
    else (parseStringBody fuel rest).map (fun p => (c :: p.1, p.2))

/-- JSON insignificant whitespace accepted by `json.loads`. -/
def jsonWs (c : Char) : Bool :=
  c = ' ' || c = '\t' || c = '\n' || c = '\x0d'

/-- Skip insignificant whitespace. -/
def skipWs (s : Str) : Str := s.dropWhile jsonWs

/-- After the first element of a JSON array: parse `, "elem"` repetitions and
the closing bracket, returning the remaining elements and the leftover input.
The loop is indexed by fuel; every recursive step consumes at least one input
character, and the caller passes more fuel than there are input characters,
so the fuel never runs out and the function agrees with `json.loads`'s loop. -/
def parseCommaItems : Nat → Str → Option (List Str × Str)
  | 0, _ => none
  | fuel + 1, l =>
    match skipWs l with
    | [] => none
    | c :: r =>
      if c = ']' then some ([], r)
      else if c = ',' then
        match skipWs r with
        | [] => none
        | c2 :: r2 =>
          if c2 = '"' then
            match parseStringBody (r2.length + 1) r2 with
            | some (s, r3) =>
              match parseCommaItems fuel r3 with
              | some (ss, r4) => some (s :: ss, r4)
              | none => none
            | none => none
          else none
      else none

/-- Parse a JSON document that is an array of strings, per `json.loads`
(restricted to the string-array values this repository ever decodes). -/
def parseJsonStrList (l : Str) : Option (List Str) :=
  match skipWs l with
  | [] => none
  | c :: r =>
    if c = '[' then
      match skipWs r with
      | [] => none
      | c2 :: r2 =>
        if c2 = ']' then (if (skipWs r2).isEmpty then some [] else none)
        else if c2 = '"' then
          match parseStringBody (r2.length + 1) r2 with
          | some (s, r3) =>
            match parseCommaItems (r3.length + 1) r3 with
            | some (ss, r4) => if (skipWs r4).isEmpty then some (s :: ss) else none
            | none => none
          | none => none
        else none
    else none

/-- `uri_piece_to_list` (graph.py:35-42): decode via `json.loads`; a failure to
decode surfaces as a `ValueError` (the spec's `MalformedURIError`). -/
def uri_piece_to_list (uri : Str) : Except Str (List Str) :=
  match parseJsonStrList uri with
  | some l => .ok l
  | none => .error "malformed".toList

deriving instance DecidableEq for Except

/-- Python exception classes raised by the embedded code paths. -/
inductive Err where
  /-- `raise ValueError(...)` (also covers `json` decoding errors). -/
  | valueError (msg : Str)
  /-- `assert` failure. -/
  | assertionError (msg : Str)
  /-- `getattr` on a missing attribute (no default supplied). -/
  | attributeError (attr : Str)
  /-- property lookup `obj[key]` on an absent property key. -/
  | keyError (key : Str)
  /-- `raise TypeError`. -/
  | typeError
  /-- indexing an empty sequence (`uri_parts[0]`), or a lookup by a database
  id that does not exist. -/
  | notFoundError
  /-- recursion fuel ran out; never raised by the Python code, only a bound
  of this embedding. -/
  | fuelExhausted
deriving DecidableEq, Repr

/-- The property set a node is created with.  The source passes these as
keyword arguments (`type`, `uri`, and per-type extras plus caller-supplied
assertion properties, which we keep as an association list). -/
structure NodeData where
  ntype : Str
  uri : Str
  name : Option Str := none
  language : Option Str := none
  score : Option Int := none
  props : List (Str × Str) := []
deriving DecidableEq, Repr

/-- A node stored in the backend: its database id plus its properties. -/
structure GNode extends NodeData where
  nid : Nat
deriving DecidableEq, Repr

/-- An edge stored in the backend.  The source stores a derived property
`edge['nodes'] = '%d-%d' % (source.id, target.id)`; decimal formatting is a
bijection between id pairs and these key strings, so the model stores the
pair itself.  The only other edge properties the repository ever sets are
`position` (on `arg` edges) and `weight` (on `justifies` edges); Python
floats are modelled as rationals. -/
structure GEdge where
  eid : Nat
  etype : Str
  startId : Nat
  endId : Nat
  position : Option Nat := none
  weight : Option ℚ := none
  nodes : Nat × Nat
deriving DecidableEq, Repr

/-- The state of the Neo4j store as the adapter exposes it: node list, edge
list, and fresh-id counters. -/
structure Graph where
  nodes : List GNode
  edges : List GEdge
  nextNodeId : Nat
  nextEdgeId : Nat
deriving DecidableEq, Repr

/-- The duck-typed "id, URI or node" arguments accepted throughout the class
(`_any_to_id` / `_any_to_node` / `_any_to_uri`). -/
inductive AnyForm where
  | byNode (n : GNode)
  | byUri (u : Str)
  | byId (i : Nat)
deriving DecidableEq, Repr

/-- Store-adapter well-formedness: every stored id is below the fresh-id
counter (the backend allocates ids monotonically). -/
def Graph.WF (g : Graph) : Prop :=
  (∀ n ∈ g.nodes, n.nid < g.nextNodeId) ∧
  (∀ e ∈ g.edges, e.startId < g.nextNodeId ∧ e.endId < g.nextNodeId)

/-- `get_node` (graph.py:336-352): exact index lookup of the normalized URI
(the Lucene escaping only protects the query syntax); one hit returns the
node, no hit returns `None`, several hits fail the source's `assert`. -/
def get_node (uri : Str) (g : Graph) : Except Err (Option GNode) :=
  let u := normalize_uri uri
  match g.nodes.filter (fun n => decide (n.uri = u)) with
  | [] => .ok none
  | [n] => .ok (some n)
  | _ => .error (.assertionError "multiple results".toList)

/-- `get_node_by_id` (graph.py:468-476): `self.graph.nodes[_id]`, which raises
if the id is absent. -/
def get_node_by_id (i : Nat) (g : Graph) : Except Err GNode :=
  match g.nodes.find? (fun n => decide (n.nid = i)) with
  | some n => .ok n
  | none => .error .notFoundError

/-- `_any_to_uri` (graph.py:451-466). -/
def any_to_uri (obj : AnyForm) (g : Graph) : Except Err Str :=
  match obj with
  | .byNode n => .ok n.uri
  | .byUri u => .ok (normalize_uri u)
  | .byId i => (get_node_by_id i g).map (fun n => n.uri)

/-- `_any_to_id` (graph.py:408-426). -/
def any_to_id (obj : AnyForm) (g : Graph) : Except Err Nat :=
  match obj with
  | .byNode n => .ok n.nid
  | .byUri u =>
    match get_node u g with
    | .error e => .error e
    | .ok (some n) => .ok n.nid
    | .ok none => .error (.valueError "could not find node".toList)
  | .byId i => .ok i

/-- `_any_to_node` (graph.py:428-449) with `create=False`, the default used by
`_create_edge`, `get_rel_and_args`, `get_args` and `delete_node`. -/
def any_to_node0 (obj : AnyForm) (g : Graph) : Except Err GNode :=
  match obj with
  | .byNode n => .ok n
  | .byUri u =>
    match get_node u g with
    | .error e => .error e
    | .ok (some n) => .ok n
    | .ok none => .error (.valueError "could not find node".toList)
  | .byId i => get_node_by_id i g

/-- `_create_node` (graph.py:159-163): the backend allocates a fresh id and
stores the given properties. -/
def create_node_raw (d : NodeData) (g : Graph) : GNode × Graph :=
  let node : GNode := { d with nid := g.nextNodeId }
  (node, { g with nodes := g.nodes ++ [node], nextNodeId := g.nextNodeId + 1 })

/-- `_create_edge` (graph.py:165-180): resolve both endpoints with the
default (non-creating) `_any_to_node`, create the edge with the given
properties, and record the endpoint-pair index key. -/
def create_edge (etype : Str) (source target : AnyForm) (position : Option Nat)
    (weight : Option ℚ) (g : Graph) : Except Err (GEdge × Graph) :=
  match any_to_node0 source g with
  | .error e => .error e
  | .ok s =>
    match any_to_node0 target g with
    | .error e => .error e
    | .ok t =>
      let edge : GEdge := { eid := g.nextEdgeId, etype := etype, startId := s.nid,
                            endId := t.nid, position := position, weight := weight,
                            nodes := (s.nid, t.nid) }
      .ok (edge, { g with edges := g.edges ++ [edge], nextEdgeId := g.nextEdgeId + 1 })

/-- Python `uri.split('/', 2)` on a string with at least two slashes:
the part before the first slash, the part between the first two slashes,
and everything after the second slash. -/
def split2 (s : Str) : Str × Str × Str :=
  let p1 := s.span (fun c => decide (c ≠ '/'))
  let p2 := p1.2.tail.span (fun c => decide (c ≠ '/'))
  (p1.1, p2.1, p2.2.tail)

/-- `_create_concept_node` (graph.py:234-254): `rest` must split into exactly
`language/name` (Python tuple unpacking raises `ValueError` otherwise). -/
def create_concept_node (uri rest : Str) (props : List (Str × Str)) (g : Graph) :
    Except Err (GNode × Graph) :=
  match rest.splitOn '/' with
  | [language, name] =>
    .ok (create_node_raw { ntype := "concept".toList,
                           language := some language, name := some name, uri := uri,
                           score := some 0, props := props } g)
  | _ => .error (.valueError "unpack".toList)

/-- `_create_frame_node` (graph.py:256-276). -/
def create_frame_node (uri rest : Str) (props : List (Str × Str)) (g : Graph) :
    Except Err (GNode × Graph) :=
  match rest.splitOn '/' with
  | [language, name] =>
    .ok (create_node_raw { ntype := "frame".toList,
                           name := some name, language := some language,
                           score := some 0, uri := uri, props := props } g)
  | _ => .error (.valueError "unpack".toList)

/-- `_create_relation_node` (graph.py:278-296): `rest` is the relation name
verbatim; no score is set. -/
def create_relation_node (uri rest : Str) (props : List (Str × Str)) (g : Graph) :
    Except Err (GNode × Graph) :=
  .ok (create_node_raw { ntype := "relation".toList,
                         name := some rest, uri := uri, props := props } g)

/-- `_create_source_node` (graph.py:298-316): the display name is the last
slash-delimited segment of `rest`. -/
def create_source_node (uri rest : Str) (props : List (Str × Str)) (g : Graph) :
    Except Err (GNode × Graph) :=
  .ok (create_node_raw { ntype := "source".toList,
                         name := some ((rest.splitOn '/').getLastD []), uri := uri,
                         props := props } g)

/-- The loop in `_create_assertion_w_components` (graph.py:202-203): one `arg`
edge per argument, carrying the 1-based `position` property. -/
def create_arg_edges (assertion : GNode) : List AnyForm → Nat → Graph →
    Except Err Graph
  | [], _, g => .ok g
  | a :: rest, i, g =>
    match create_edge "arg".toList (.byNode assertion) a (some (i + 1)) none g with
    | .error e => .error e
    | .ok (_, g1) => create_arg_edges assertion rest (i + 1) g1

/-- `_create_assertion_w_components` (graph.py:182-204): create the assertion
node, its `relation` edge, and its positioned `arg` edges. -/
def create_assertion_w_components (uri : Str) (relation : AnyForm)
    (args : List AnyForm) (props : List (Str × Str)) (g : Graph) :
    Except Err (GNode × Graph) :=
  let p := create_node_raw { ntype := "assertion".toList, uri := uri,
                             score := some 0, props := props } g
  match create_edge "relation".toList (.byNode p.1) relation none none p.2 with
  | .error e => .error e
  | .ok (_, g1) =>
    match create_arg_edges p.1 args 0 g1 with
    | .error e => .error e
    | .ok g2 => .ok (p.1, g2)

mutual

/-- `_create_node_by_type` (graph.py:132-157): normalize the URI, require at
least two slashes, split off the type tag, and dispatch to
`_create_<type>_node` via `getattr`.  `getattr` is called without a default,
so an unknown tag raises `AttributeError` before the source's dead
`if method is None` check; `web_concept` resolves to a builder whose arity
does not match the dispatch call, raising `TypeError`.  The recursion through
assertion components is bounded by explicit fuel (the Python code recurses on
strictly shorter URIs). -/
def create_node_by_type : Nat → Str → List (Str × Str) → Graph →
    Except Err (GNode × Graph)
  | 0, _, _, _ => .error .fuelExhausted
  | fuel + 1, uri, props, g =>
    let u := normalize_uri uri
    if u.count '/' < 2 then .error (.valueError "URI too short".toList)
    else
      let parts := split2 u
      if parts.2.1 = "assertion".toList then
        create_assertion_node fuel u parts.2.2 props g
      else if parts.2.1 = "concept".toList then create_concept_node u parts.2.2 props g
      else if parts.2.1 = "frame".toList then create_frame_node u parts.2.2 props g
      else if parts.2.1 = "relation".toList then create_relation_node u parts.2.2 props g
      else if parts.2.1 = "source".toList then create_source_node u parts.2.2 props g
      else if parts.2.1 = "web_concept".toList then .error .typeError
      else .error (.attributeError ("_create_".toList ++ parts.2.1 ++ "_node".toList))

/-- `get_or_create_node` (graph.py:478-487).  (Like every function in this
mutual family, the fuel is decremented at each call so that the recursion is
structural; the Python code has no fuel and simply recurses on strictly
shorter URIs.) -/
def get_or_create_node : Nat → Str → List (Str × Str) → Graph →
    Except Err (GNode × Graph)
  | 0, _, _, _ => .error .fuelExhausted
  | fuel + 1, uri, props, g =>
    match get_node uri g with
    | .error e => .error e
    | .ok (some n) => .ok (n, g)
    | .ok none => create_node_by_type fuel uri props g

/-- The loop in `_create_assertion_node` (graph.py:223-226): get or create a
node for each argument URI. -/
def goc_nodes_loop : Nat → List Str → Graph → Except Err (List GNode × Graph)
  | 0, _, _ => .error .fuelExhausted
  | _ + 1, [], g => .ok ([], g)
  | fuel + 1, u :: rest, g =>
    match get_or_create_node fuel u [] g with
    | .error e => .error e
    | .ok (n, g1) =>
      match goc_nodes_loop fuel rest g1 with
      | .error e => .error e
      | .ok (ns, g2) => .ok (n :: ns, g2)

/-- `_create_assertion_node` (graph.py:206-232): decode the component URIs
from `rest`, get or create the relation and argument nodes, then build the
assertion.  An empty decoded list makes `uri_parts[0]` raise. -/
def create_assertion_node : Nat → Str → Str → List (Str × Str) → Graph →
    Except Err (GNode × Graph)
  | 0, _, _, _, _ => .error .fuelExhausted
  | fuel + 1, uri, rest, props, g =>
    match uri_piece_to_list rest with
    | .error e => .error (.valueError e)
    | .ok [] => .error .notFoundError
    | .ok (rel_uri :: arg_uris) =>
      match get_or_create_node fuel rel_uri [] g with
      | .error e => .error e
      | .ok (rel, g1) =>
        match goc_nodes_loop fuel arg_uris g1 with
        | .error e => .error e
        | .ok (args, g2) =>
          create_assertion_w_components uri (.byNode rel) (args.map .byNode) props g2

end

/-- `_any_to_node` (graph.py:428-449) with `create=True`, as used by
`get_or_create_assertion`: a URI that is not found is materialized through
`get_or_create_node`. -/
def any_to_node_create (fuel : Nat) (obj : AnyForm) (g : Graph) :
    Except Err (GNode × Graph) :=
  match obj with
  | .byNode n => .ok (n, g)
  | .byUri u =>
    match get_node u g with
    | .error e => .error e
    | .ok (some n) => .ok (n, g)
    | .ok none => get_or_create_node fuel u [] g
  | .byId i => (get_node_by_id i g).map (fun n => (n, g))

/-- The argument list comprehension in `get_or_create_assertion`
(graph.py:521): resolve each argument with the creating `_any_to_node`. -/
def any_to_node_create_list (fuel : Nat) : List AnyForm → Graph →
    Except Err (List GNode × Graph)
  | [], g => .ok ([], g)
  | a :: rest, g =>
    match any_to_node_create fuel a g with
    | .error e => .error e
    | .ok (n, g1) =>
      match any_to_node_create_list fuel rest g1 with
      | .error e => .error e
      | .ok (ns, g2) => .ok (n :: ns, g2)

/-- The URI list comprehension in `get_or_create_assertion` (graph.py:518):
resolve each argument to its URI. -/
def any_to_uri_list : List AnyForm → Graph → Except Err (List Str)
  | [], _ => .ok []
  | a :: rest, g =>
    match any_to_uri a g with
    | .error e => .error e
    | .ok u =>
      match any_to_uri_list rest g with
      | .error e => .error e
      | .ok us => .ok (u :: us)

/-- Resolution of a list of arguments with the non-creating `_any_to_node`
(used to phrase the preconditions of the assertion round-trip theorem). -/
def any_to_node0_list : List AnyForm → Graph → Except Err (List GNode)
  | [], _ => .ok []
  | a :: rest, g =>
    match any_to_node0 a g with
    | .error e => .error e
    | .ok n =>
      match any_to_node0_list rest g with
      | .error e => .error e
      | .ok ns => .ok (n :: ns)

/-- `get_or_create_assertion` (graph.py:504-521): derive the assertion URI
from the resolved component URIs, return the node at that URI if it exists,
otherwise create the assertion from nodes resolved (or materialized) from
the same arguments. -/
def get_or_create_assertion (fuel : Nat) (relation : AnyForm) (args : List AnyForm)
    (props : List (Str × Str)) (g : Graph) : Except Err (GNode × Graph) :=
  match any_to_uri relation g with
  | .error e => .error e
  | .ok rel_uri =>
    match any_to_uri_list args g with
    | .error e => .error e
    | .ok arg_uris =>
      let uri := make_assertion_uri rel_uri arg_uris
      match get_node uri g with
      | .error e => .error e
      | .ok (some n) => .ok (n, g)
      | .ok none =>
        match any_to_node_create fuel relation g with
        | .error e => .error e
        | .ok (rel, g1) =>
          match any_to_node_create_list fuel args g1 with
          | .error e => .error e
          | .ok (argNodes, g2) =>
            create_assertion_w_components uri (.byNode rel) (argNodes.map .byNode)
              props g2

/-- `get_edges` (graph.py:385-396): resolve both endpoints to ids and query
the edge index by the `'%d-%d'` endpoint-pair key. -/
def get_edges (source target : AnyForm) (g : Graph) : Except Err (List GEdge) :=
  match any_to_id source g with
  | .error e => .error e
  | .ok sid =>
    match any_to_id target g with
    | .error e => .error e
    | .ok tid => .ok (g.edges.filter (fun e => decide (e.nodes = (sid, tid))))

/-- `get_edge` (graph.py:368-383): first edge of the requested type between
the two nodes, or `None`. -/
def get_edge (etype : Str) (source target : AnyForm) (g : Graph) :
    Except Err (Option GEdge) :=
  match get_edges source target g with
  | .error e => .error e
  | .ok edges => .ok (edges.find? (fun e => decide (e.etype = etype)))

/-- `get_or_create_edge` (graph.py:489-502). -/
def get_or_create_edge (etype : Str) (source target : AnyForm)
    (position : Option Nat) (weight : Option ℚ) (g : Graph) :
    Except Err (GEdge × Graph) :=
  match get_edge etype source target g with
  | .error e => .error e
  | .ok (some e) => .ok (e, g)
  | .ok none => create_edge etype source target position weight g

/-- The URI built by `get_or_create_concept` (graph.py:523-538): slashes in
the name are replaced by underscores so that they are not mistaken for a
disambiguation, and the disambiguation segment is appended only when the
argument is a non-empty (truthy) string. -/
def concept_uri (language name disambiguation : Str) : Str :=
  let n := name.map (fun c => if c = '/' then '_' else c)
  let uri := "/concept/".toList ++ language ++ '/' :: n
  if disambiguation.isEmpty then uri else uri ++ '/' :: disambiguation

/-- `get_or_create_concept` (graph.py:523-538). -/
def get_or_create_concept (fuel : Nat) (language name disambiguation : Str)
    (g : Graph) : Except Err (GNode × Graph) :=
  let uri := concept_uri language name disambiguation
  match get_node uri g with
  | .error e => .error e
  | .ok (some n) => .ok (n, g)
  | .ok none => create_node_by_type fuel uri [] g

/-- `get_or_create_conjunction` (graph.py:540-559): sort the resolved
conjunct URIs (Python's lexicographic string order), derive the conjunction
URI from the sorted list, and create a bare conjunction node if absent. -/
def get_or_create_conjunction (conjuncts : List AnyForm) (g : Graph) :
    Except Err (GNode × Graph) :=
  match conjuncts.mapM (fun c => any_to_uri c g) with
  | .error e => .error e
  | .ok uris =>
    let sorted := uris.insertionSort (fun a b => a ≤ b)
    let uri := "/conjunction/".toList ++ list_to_uri_piece sorted
    match get_node uri g with
    | .error e => .error e
    | .ok (some n) => .ok (n, g)
    | .ok none =>
      .ok (create_node_raw { ntype := "conjunction".toList, uri := uri } g)

/-- Sort key used on `arg` edges: the `position` property (every `arg` edge is
created with one, so the default never applies on reachable data). -/
def posKey (e : GEdge) : Nat := e.position.getD 0

/-- `get_rel_and_args` (graph.py:625-633).  Line 629 collects and line 631
position-sorts the outgoing `arg` edges.  Line 632 then binds `rel_edge` to
`assertion.relationships.outgoing(types=['relation'][0])`: the subscript
indexes the literal list, so the call is `outgoing(types='relation')` and its
result is a *sequence* of edges (the identical call two lines up is sliced
with `[:]`, and the store adapter returns sequences of edges).  `rel_edge.end`
on line 633 is therefore an attribute access on a sequence and raises
`AttributeError` unconditionally: once the assertion resolves to a node, the
function can never return. -/
def get_rel_and_args (a : AnyForm) (g : Graph) : Except Err (List GNode) :=
  match any_to_node0 a g with
  | .error e => .error e
  | .ok n =>
    let _argEdges := (g.edges.filter
        (fun e => decide (e.startId = n.nid) && decide (e.etype = "arg".toList))).insertionSort
      (fun e1 e2 => posKey e1 ≤ posKey e2)
    let _rel_edge := g.edges.filter
        (fun e => decide (e.startId = n.nid) && decide (e.etype = "relation".toList))
    .error (.attributeError "end".toList)

/-- `justify` (graph.py:635-649): get or create a `justifies` edge carrying
the given weight; the weight is passed through verbatim, with no range
check. -/
def justify (source target : AnyForm) (weight : ℚ) (g : Graph) :
    Except Err (GEdge × Graph) :=
  get_or_create_edge "justifies".toList source target none (some weight) g

/-- The pairing loop of `derive_normalized` (graph.py:668-671): for each
element-wise pair of the two rel-and-args sequences (`zip` truncates at the
shorter), a `normalized` edge is added between differing nodes.
(`neo4jrestclient` compares nodes by database identity, which structural
equality models on stored nodes.) -/
def normalized_pairs_loop : List (GNode × GNode) → Graph → Except Err Graph
  | [], g => .ok g
  | (n1, n2) :: rest, g =>
    if n1 = n2 then normalized_pairs_loop rest g
    else
      match get_or_create_edge "normalized".toList (.byNode n1) (.byNode n2)
          none none g with
      | .error e => .error e
      | .ok (_, g1) => normalized_pairs_loop rest g1

/-- `derive_normalized` (graph.py:651-672): `assert weight > 0`, then get or
create the assertion-level `normalized` edge, add the justification, and
propagate `normalized` edges to differing rel-and-args pairs.  (Because
`get_rel_and_args` raises `AttributeError` whenever its argument resolves,
the pairing loop is unreachable: the function propagates that error after
the first two edge operations have already mutated the store.) -/
def derive_normalized (source target : AnyForm) (weight : ℚ) (g : Graph) :
    Except Err (GEdge × Graph) :=
  if weight > 0 then
    match get_or_create_edge "normalized".toList source target none none g with
    | .error e => .error e
    | .ok (edge, g1) =>
      match justify source target weight g1 with
      | .error e => .error e
      | .ok (_, g2) =>
        match get_rel_and_args source g2 with
        | .error e => .error e
        | .ok ras =>
          match get_rel_and_args target g2 with
          | .error e => .error e
          | .ok rat =>
            match normalized_pairs_loop (ras.zip rat) g2 with
            | .error e => .error e
            | .ok g3 => .ok (edge, g3)
  else .error (.assertionError "weight".toList)

/-- The `'type'` property of an edge.  No code path in the repository ever
sets a `'type'` property on an edge (`_create_edge` sets only `'nodes'`,
plus `'position'` or `'weight'` where given), so the lookup never finds
one. -/
def edge_type_property (_e : GEdge) : Option Str := none

/-- The conjunction-collecting loop of `delete_node` (graph.py:689-691):
`for rel_node in node.relationships.outgoing(): if rel_node['type'] == ...`.
`rel_node` ranges over the outgoing edges themselves, and `edge['type']` is a
property lookup on the edge, which raises `KeyError` because edges never
carry a `'type'` property. -/
def collect_conjunctions : List GEdge → Except Err (List GEdge)
  | [] => .ok []
  | e :: rest =>
    match edge_type_property e with
    | none => .error (.keyError "type".toList)
    | some t =>
      match collect_conjunctions rest with
      | .error err => .error err
      | .ok tail => .ok (if t = "conjunction".toList then e :: tail else tail)

/-- The `type` of the origin node of an edge, as read by
`edge.start['type']` (graph.py:694). -/
def start_node_type (g : Graph) (e : GEdge) : Option Str :=
  (g.nodes.find? (fun n => decide (n.nid = e.startId))).map (fun n => n.ntype)

/-- Deletion of every edge incident to a node (graph.py:698-699). -/
def remove_incident_edges (nid : Nat) (g : Graph) : Graph :=
  { g with edges := g.edges.filter (fun e => !(decide (e.startId = nid) || decide (e.endId = nid))) }

/-- Deletion of a listed collection of edges by id (the
`for conjunction in conj_list: conjunction.delete()` loop, graph.py:700-701 —
the collected objects are edges). -/
def remove_edges_list (es : List GEdge) (g : Graph) : Graph :=
  { g with edges := g.edges.filter (fun e => decide (e ∉ es)) }

/-- Deletion of the node itself (graph.py:702). -/
def remove_node (nid : Nat) (g : Graph) : Graph :=
  { g with nodes := g.nodes.filter (fun n => decide (n.nid ≠ nid)) }

/-- `delete_node` (graph.py:674-704): a `source` node collects "conjunction"
entries from its outgoing edges (see `collect_conjunctions`); any other
non-`conjunction` node is refused (the source's `assert False`) when some
incoming edge originates at an `assertion`; otherwise every incident edge,
the collected entries and the node itself are deleted. -/
def delete_node (obj : AnyForm) (g : Graph) : Except Err Graph :=
  match any_to_node0 obj g with
  | .error e => .error e
  | .ok node =>
    if node.ntype = "source".toList then
      match collect_conjunctions (g.edges.filter (fun e => decide (e.startId = node.nid))) with
      | .error e => .error e
      | .ok conj_list =>
        .ok (remove_node node.nid
              (remove_edges_list conj_list (remove_incident_edges node.nid g)))
    else if node.ntype ≠ "conjunction".toList then
      if (g.edges.filter (fun e => decide (e.endId = node.nid))).any
          (fun e => decide (start_node_type g e = some "assertion".toList)) then
        .error (.assertionError "There are other nodes that are dependent on this node".toList)
      else
        .ok (remove_node node.nid (remove_incident_edges node.nid g))
    else
      .ok (remove_node node.nid (remove_incident_edges node.nid g))

/-- One statement of the bulk-export artifact.  The source formats these as
Gremlin text (`Object.metaClass.makeNode(uri, map)` /
`makeEdge(type, source, target, map)` plus the fixed setup preamble); the
model keeps them structurally. -/
inductive GremStmt where
  | setup
  | makeNode (uri : Str) (d : NodeData)
  | makeEdge (etype : Str) (source target : Str) (position : Option Nat)
      (weight : Option ℚ)
deriving DecidableEq, Repr

/-- The state of `GremlinWriterGraph`: the statements written so far and the
bounded recency cache of created URIs. -/
structure GremlinGraph where
  output : List GremStmt
  recently_created_uris : List Str
deriving DecidableEq, Repr

/-- A fresh `GremlinWriterGraph` (graph.py:716-723): the output starts with
the setup preamble and the recency cache is empty. -/
def gremlin_init : GremlinGraph :=
  { output := [.setup], recently_created_uris := [] }

/-- Python `l[-19:]`: the last 19 elements. -/
def takeLast (n : Nat) (l : List Str) : List Str := l.drop (l.length - n)

/-- `GremlinWriterGraph._create_node` (graph.py:729-737): emit a `makeNode`
statement and append the URI to the 20-entry recency queue; the "node"
returned to callers is the URI itself. -/
def gw_create_node (d : NodeData) (gw : GremlinGraph) : Str × GremlinGraph :=
  (d.uri, { output := gw.output ++ [.makeNode d.uri d],
            recently_created_uris := takeLast 19 gw.recently_created_uris ++ [d.uri] })

/-- `GremlinWriterGraph._create_edge` (graph.py:739-744): emit a `makeEdge`
statement.  (The `if source == 0` int comparison is never true for the
string keys this variant passes around.) -/
def gw_create_edge (etype : Str) (source target : Str) (position : Option Nat)
    (weight : Option ℚ) (gw : GremlinGraph) : GremlinGraph :=
  { gw with output := gw.output ++ [.makeEdge etype source target position weight] }

/-- `GremlinWriterGraph.get_node` (graph.py:766-770): only the recency cache
is consulted; a hit returns the URI itself. -/
def gw_get_node (uri : Str) (gw : GremlinGraph) : Option Str :=
  if uri ∈ gw.recently_created_uris then some uri else none

/-- `GremlinWriterGraph.get_edge` (graph.py:772-774): always `None`, forcing
every edge to be "created". -/
def gw_get_edge (_etype : Str) (_source _target : Str) (_gw : GremlinGraph) :
    Option GremStmt := none

/-- `GremlinWriterGraph.get_edges` (graph.py:776-777): always empty. -/
def gw_get_edges (_source _target : Str) (_gw : GremlinGraph) : List GremStmt := []

/-- `get_or_create_edge` as inherited by the writer variant (graph.py:489-502
over the overridden `get_edge`/`_create_edge`): the lookup always misses, so
a `makeEdge` statement is always emitted. -/
def gw_get_or_create_edge (etype : Str) (source target : Str)
    (position : Option Nat) (weight : Option ℚ) (gw : GremlinGraph) : GremlinGraph :=
  match gw_get_edge etype source target gw with
  | some _ => gw
  | none => gw_create_edge etype source target position weight gw

/-- `justify` as inherited by the writer variant (graph.py:635-649). -/
def gw_justify (source target : Str) (weight : ℚ) (gw : GremlinGraph) : GremlinGraph :=
  gw_get_or_create_edge "justifies".toList source target none (some weight) gw

mutual

/-- `_create_node_by_type` as inherited by the writer variant: the same
dispatch as the live class, but every `self._create_node` resolves to the
overridden emitting version. -/
def gw_create_node_by_type : Nat → Str → List (Str × Str) → GremlinGraph →
    Except Err (Str × GremlinGraph)
  | 0, _, _, _ => .error .fuelExhausted
  | fuel + 1, uri, props, gw =>
    let u := normalize_uri uri
    if u.count '/' < 2 then .error (.valueError "URI too short".toList)
    else
      let parts := split2 u
      if parts.2.1 = "assertion".toList then
        gw_create_assertion_node fuel u parts.2.2 props gw
      else if parts.2.1 = "concept".toList then
        match parts.2.2.splitOn '/' with
        | [language, name] =>
          .ok (gw_create_node { ntype := "concept".toList, language := some language,
                                name := some name, uri := u, score := some 0,
                                props := props } gw)
        | _ => .error (.valueError "unpack".toList)
      else if parts.2.1 = "frame".toList then
        match parts.2.2.splitOn '/' with
        | [language, name] =>
          .ok (gw_create_node { ntype := "frame".toList, name := some name,
                                language := some language, score := some 0,
                                uri := u, props := props } gw)
        | _ => .error (.valueError "unpack".toList)
      else if parts.2.1 = "relation".toList then
        .ok (gw_create_node { ntype := "relation".toList, name := some parts.2.2,
                              uri := u, props := props } gw)
      else if parts.2.1 = "source".toList then
        .ok (gw_create_node { ntype := "source".toList,
                              name := some ((parts.2.2.splitOn '/').getLastD []),
                              uri := u, props := props } gw)
      else if parts.2.1 = "web_concept".toList then .error .typeError
      else .error (.attributeError ("_create_".toList ++ parts.2.1 ++ "_node".toList))

/-- `get_or_create_node` as inherited by the writer variant: the overridden
recency-cache `get_node` decides existence. -/
def gw_get_or_create_node : Nat → Str → List (Str × Str) → GremlinGraph →
    Except Err (Str × GremlinGraph)
  | 0, _, _, _ => .error .fuelExhausted
  | fuel + 1, uri, props, gw =>
    match gw_get_node uri gw with
    | some n => .ok (n, gw)
    | none => gw_create_node_by_type fuel uri props gw

/-- The component-node loop of the writer variant's assertion creation. -/
def gw_goc_nodes_loop : Nat → List Str → GremlinGraph →
    Except Err (List Str × GremlinGraph)
  | 0, _, _ => .error .fuelExhausted
  | _ + 1, [], gw => .ok ([], gw)
  | fuel + 1, u :: rest, gw =>
    match gw_get_or_create_node fuel u [] gw with
    | .error e => .error e
    | .ok (n, gw1) =>
      match gw_goc_nodes_loop fuel rest gw1 with
      | .error e => .error e
      | .ok (ns, gw2) => .ok (n :: ns, gw2)

/-- `_create_assertion_node` as inherited by the writer variant. -/
def gw_create_assertion_node : Nat → Str → Str → List (Str × Str) → GremlinGraph →
    Except Err (Str × GremlinGraph)
  | 0, _, _, _, _ => .error .fuelExhausted
  | fuel + 1, uri, rest, props, gw =>
    match uri_piece_to_list rest with
    | .error e => .error (.valueError e)
    | .ok [] => .error .notFoundError
    | .ok (rel_uri :: arg_uris) =>
      match gw_get_or_create_node fuel rel_uri [] gw with
      | .error e => .error e
      | .ok (rel, gw1) =>
        match gw_goc_nodes_loop fuel arg_uris gw1 with
        | .error e => .error e
        | .ok (args, gw2) => .ok (gw_create_assertion_w_components uri rel args props gw2)

/-- `_create_assertion_w_components` as inherited by the writer variant:
creating the node and edges emits statements; endpoints are URI strings. -/
def gw_create_assertion_w_components (uri : Str) (relation : Str)
    (args : List Str) (props : List (Str × Str)) (gw : GremlinGraph) :
    Str × GremlinGraph :=
  let p := gw_create_node { ntype := "assertion".toList, uri := uri,
                            score := some 0, props := props } gw
  let gw1 := gw_create_edge "relation".toList p.1 relation none none p.2
  (p.1, gw_arg_edges p.1 args 0 gw1)

/-- The `arg`-edge loop of the writer variant. -/
def gw_arg_edges (assertion : Str) : List Str → Nat → GremlinGraph → GremlinGraph
  | [], _, gw => gw
  | a :: rest, i, gw =>
    gw_arg_edges assertion rest (i + 1)
      (gw_create_edge "arg".toList assertion a (some (i + 1)) none gw)

end

/-- A sequence of raw node creations in the writer variant (the shape every
creation ultimately takes: each builder calls `_create_node` exactly once
per created node). -/
def gw_run_creates (ds : List NodeData) : GremlinGraph :=
  ds.foldl (fun gw d => (gw_create_node d gw).2) gremlin_init

/-! ## Concrete fixtures used by the claim theorems -/

/-- An empty backend store. -/
def empty_graph : Graph := { nodes := [], edges := [], nextNodeId := 0, nextEdgeId := 0 }

/-- A store holding a `source` node that points at a `conjunction` node,
the situation `delete_node`'s docstring says its cascade handles. -/
def source_conj_graph : Graph :=
  { nodes := [ { nid := 0, ntype := "source".toList, uri := "/source/contributor/omcs/dev".toList,
                 name := some "dev".toList },
               { nid := 1, ntype := "conjunction".toList,
                 uri := "/conjunction/[]".toList } ],
    edges := [ { eid := 0, etype := "justifies".toList, startId := 0, endId := 1,
                 nodes := (0, 1) } ],
    nextNodeId := 2, nextEdgeId := 1 }

/-! ## Claim theorems -/

/-- C10: in the bulk-export variant, `get_edge` always returns `None` and
`get_edges` always returns the empty sequence, for every type, source and
target; consequently every `get_or_create_edge` (hence every `justify`)
unconditionally appends a fresh `makeEdge` statement to the output artifact,
even when the identical edge was emitted immediately before — the recency
cache deduplicates only nodes, never edges. -/
theorem C10_gremlin_edges_never_deduplicated :
    ∀ (etype source target : Str) (gw : GremlinGraph) (pos : Option Nat)
      (w : Option ℚ) (wq : ℚ),
      gw_get_edge etype source target gw = none ∧
      gw_get_edges source target gw = [] ∧
      gw_get_or_create_edge etype source target pos w gw =
        { gw with output := gw.output ++ [.makeEdge etype source target pos w] } ∧
      (gw_get_or_create_edge etype source target pos w
          (gw_get_or_create_edge etype source target pos w gw)).output =
        gw.output ++ [.makeEdge etype source target pos w,
                      .makeEdge etype source target pos w] ∧
      gw_justify source target wq gw =
        { gw with output := gw.output ++
            [.makeEdge "justifies".toList source target none (some wq)] } := by
  intro etype source target gw pos w wq
  refine ⟨rfl, rfl, rfl, ?_, rfl⟩
  simp [gw_get_or_create_edge, gw_get_edge, gw_create_edge]

/-- C5: `_create_node_by_type` rejects a normalized URI with fewer than two
slash-separated segments beyond the root with a `ValueError` ("URI too
short"), as the claim says; but for a URI whose type tag has no builder the
claim's `ValidationError("unknown node type")` is never raised: `getattr` is
called without a default, so an `AttributeError` escapes first and the
source's own `if method is None: raise ValueError(...)` branch is dead.
This theorem evaluates both paths at concrete inputs. -/
theorem C5_unknown_type_raises_attribute_error :
    create_node_by_type 1 "/x".toList [] empty_graph =
      .error (.valueError "URI too short".toList) ∧
    create_node_by_type 1 "/bogus/a/b".toList [] empty_graph =
      .error (.attributeError "_create_bogus_node".toList) := by
  constructor <;> decide

/-- C3: the claim says that for a `source` node the dependent conjunctions —
its outgoing-edge targets of type `conjunction` — are deleted.  The code
instead iterates over the outgoing edges themselves and reads each edge's
`'type'` property (`rel_node['type']`, graph.py:690), which no edge ever
has, so deleting a source that points at a conjunction raises `KeyError`
and no conjunction node is ever deleted — contradicting the function's own
docstring.  This theorem evaluates the failing input. -/
theorem C3_source_deletion_keyerror :
    delete_node (.byNode { nid := 0, ntype := "source".toList,
                           uri := "/source/contributor/omcs/dev".toList,
                           name := some "dev".toList })
        source_conj_graph =
      .error (.keyError "type".toList) := by
  decide

/-- Filler concept creations used to age a URI out of the recency window. -/
def c8_filler (i : Nat) : NodeData :=
  { ntype := "concept".toList, uri := "/concept/en/c".toList ++ (toString i).toList,
    language := some "en".toList, name := some ('c' :: (toString i).toList),
    score := some 0 }

/-- A relation node created first and then pushed out of the window. -/
def c8_rel_data : NodeData :=
  { ntype := "relation".toList, name := some "IsA".toList,
    uri := "/relation/IsA".toList }

/-- Twenty-one creations: the relation first, then twenty fillers. -/
def c8_creates : List NodeData := c8_rel_data :: (List.range 20).map c8_filler

theorem takeLast_nineteen (xs : List Str) (u : Str) :
    takeLast 19 (takeLast 20 xs) ++ [u] = takeLast 20 (xs ++ [u]) := by
  unfold takeLast
  rw [List.drop_drop, List.length_drop, List.length_append,
      List.drop_append_of_le_length (by simp)]
  have h : xs.length - 20 + (xs.length - (xs.length - 20) - 19) =
      xs.length + [u].length - 20 := by simp; omega
  rw [h]

theorem gw_run_creates_recent_aux (ds : List NodeData) :
    ∀ (gw : GremlinGraph) (acc : List Str),
      gw.recently_created_uris = takeLast 20 acc →
      (ds.foldl (fun gw d => (gw_create_node d gw).2) gw).recently_created_uris =
        takeLast 20 (acc ++ ds.map NodeData.uri) := by
  induction ds with
  | nil => intro gw acc h; simpa using h
  | cons d ds ih =>
    intro gw acc h
    simp only [List.foldl_cons, List.map_cons]
    have step : ((gw_create_node d gw).2).recently_created_uris =
        takeLast 20 (acc ++ [d.uri]) := by
      simp [gw_create_node, h, takeLast_nineteen]
    have := ih _ _ step
    simpa [List.append_assoc] using this

theorem gw_run_creates_recent (ds : List NodeData) :
    (gw_run_creates ds).recently_created_uris = takeLast 20 (ds.map NodeData.uri) := by
  have h0 : gremlin_init.recently_created_uris = takeLast 20 ([] : List Str) := rfl
  simpa using gw_run_creates_recent_aux ds gremlin_init [] h0

/-- C8: in the bulk-export variant, `get_node` reports a URI as found exactly
when it is among the 20 most recently created URIs; any URI created earlier
reports not found, so get-or-create takes the creation path again, which
re-emits a `makeNode` statement (evaluated concretely on a history of 21
creations whose first URI has aged out of the window). -/
theorem C8_recency_window :
    (∀ (ds : List NodeData) (u : Str),
      gw_get_node u (gw_run_creates ds) = some u ↔
        u ∈ takeLast 20 (ds.map NodeData.uri)) ∧
    (∀ (ds : List NodeData) (u : Str) (fuel : Nat) (props : List (Str × Str)),
      u ∉ takeLast 20 (ds.map NodeData.uri) →
        gw_get_node u (gw_run_creates ds) = none ∧
        gw_get_or_create_node (fuel + 1) u props (gw_run_creates ds) =
          gw_create_node_by_type fuel u props (gw_run_creates ds)) ∧
    (gw_get_node "/relation/IsA".toList (gw_run_creates c8_creates) = none ∧
     (gw_get_or_create_node 2 "/relation/IsA".toList [] (gw_run_creates c8_creates)).map
         (fun p => p.2.output) =
       .ok ((gw_run_creates c8_creates).output ++
            [.makeNode "/relation/IsA".toList c8_rel_data])) := by
  refine ⟨?_, ?_, ?_, ?_⟩
  · intro ds u
    rw [gw_get_node, gw_run_creates_recent]
    split
    · simp_all
    · simp_all
  · intro ds u fuel props h
    have hn : gw_get_node u (gw_run_creates ds) = none := by
      rw [gw_get_node, gw_run_creates_recent]
      simp [h]
    exact ⟨hn, by rw [gw_get_or_create_node, hn]⟩
  · decide
  · decide

theorem get_node_some_uri {uri : Str} {g : Graph} {n : GNode}
    (h : get_node uri g = .ok (some n)) : n.uri = normalize_uri uri := by
  unfold get_node at h
  dsimp only [] at h
  split at h
  · simp at h
  · rename_i x hf
    have hx : x ∈ g.nodes.filter (fun m => decide (m.uri = normalize_uri uri)) := by
      rw [hf]; simp
    have := List.of_mem_filter hx
    simp at h this
    rw [← h]
    exact this
  · simp at h

theorem create_assertion_w_components_node {uri : Str} {rel : AnyForm}
    {args : List AnyForm} {props : List (Str × Str)} {g : Graph} {n : GNode}
    {g2 : Graph} (h : create_assertion_w_components uri rel args props g = .ok (n, g2)) :
    n.uri = uri ∧ n.ntype = "assertion".toList ∧ n.nid = g.nextNodeId := by
  unfold create_assertion_w_components at h
  dsimp only [] at h
  split at h
  · simp at h
  · split at h
    · simp at h
    · simp only [Except.ok.injEq, Prod.mk.injEq] at h
      rw [← h.1]
      exact ⟨rfl, rfl, rfl⟩

theorem create_assertion_node_uri {fuel : Nat} {uri rest : Str}
    {props : List (Str × Str)} {g : Graph} {n : GNode} {g' : Graph}
    (h : create_assertion_node fuel uri rest props g = .ok (n, g')) :
    n.uri = uri ∧ n.ntype = "assertion".toList := by
  cases fuel with
  | zero => simp [create_assertion_node] at h
  | succ fuel =>
    unfold create_assertion_node at h
    split at h
    · simp at h
    · simp at h
    · split at h
      · simp at h
      · split at h
        · simp at h
        · exact ⟨(create_assertion_w_components_node h).1,
                 (create_assertion_w_components_node h).2.1⟩

theorem create_node_by_type_uri {fuel : Nat} {uri : Str}
    {props : List (Str × Str)} {g : Graph} {n : GNode} {g' : Graph}
    (h : create_node_by_type fuel uri props g = .ok (n, g')) :
    n.uri = normalize_uri uri := by
  cases fuel with
  | zero => simp [create_node_by_type] at h
  | succ fuel =>
    unfold create_node_by_type at h
    dsimp only [] at h
    split at h
    · simp at h
    · split at h
      · exact (create_assertion_node_uri h).1
      · split at h
        · unfold create_concept_node at h
          split at h
          · simp only [Except.ok.injEq] at h
            have h1 := congrArg Prod.fst h
            dsimp only [create_node_raw] at h1
            rw [← h1]
          · simp at h
        · split at h
          · unfold create_frame_node at h
            split at h
            · simp only [Except.ok.injEq] at h
              have h1 := congrArg Prod.fst h
              dsimp only [create_node_raw] at h1
              rw [← h1]
            · simp at h
          · split at h
            · unfold create_relation_node at h
              simp only [Except.ok.injEq] at h
              have h1 := congrArg Prod.fst h
              dsimp only [create_node_raw] at h1
              rw [← h1]
            · split at h
              · unfold create_source_node at h
                simp only [Except.ok.injEq] at h
                have h1 := congrArg Prod.fst h
                dsimp only [create_node_raw] at h1
                rw [← h1]
              · split at h
                · simp at h
                · simp at h

/-- C9: `get_or_create_concept` replaces every slash in the name with an
underscore before building `"/concept/<language>/<name>"`, so a slash in a
name never creates an extra path segment that could be mistaken for a
disambiguation; the disambiguation segment is appended exactly when the
disambiguation argument is non-empty; and the node the operation returns
carries (the normalization of) this URI. -/
theorem C9_concept_slash_escape :
    ∀ (language name disambiguation : Str), '/' ∉ language →
      (concept_uri language name []).count '/' = 3 ∧
      '/' ∉ name.map (fun c => if c = '/' then '_' else c) ∧
      concept_uri language name [] =
        "/concept/".toList ++ language ++ '/' ::
          name.map (fun c => if c = '/' then '_' else c) ∧
      (disambiguation ≠ [] →
        concept_uri language name disambiguation =
          concept_uri language name [] ++ '/' :: disambiguation) ∧
      (disambiguation = [] →
        concept_uri language name disambiguation = concept_uri language name []) ∧
      (∀ (fuel : Nat) (g : Graph) (n : GNode) (g' : Graph),
        get_or_create_concept fuel language name disambiguation g = .ok (n, g') →
          n.uri = normalize_uri (concept_uri language name disambiguation)) := by
  intro language name disambiguation hlang
  have hname : '/' ∉ name.map (fun c => if c = '/' then '_' else c) := by
    simp only [List.mem_map, not_exists]
    intro c
    by_cases hc : c = '/' <;> simp [hc]
  refine ⟨?_, hname, rfl, ?_, ?_, ?_⟩
  · have h1 : (language.count '/') = 0 := List.count_eq_zero.mpr hlang
    have h2 : ((name.map (fun c => if c = '/' then '_' else c)).count '/') = 0 :=
      List.count_eq_zero.mpr hname
    simp [concept_uri, List.count_append, List.count_cons, h1, h2]
  · intro hd
    simp [concept_uri, List.isEmpty_iff, hd]
  · intro hd
    simp [concept_uri, hd]
  · intro fuel g n g' h
    unfold get_or_create_concept at h
    dsimp only [] at h
    split at h
    · simp at h
    · rename_i hget
      simp only [Except.ok.injEq, Prod.mk.injEq] at h
      rw [← h.1]
      exact get_node_some_uri hget
    · exact create_node_by_type_uri h

theorem insertionSort_perm_eq {us1 us2 : List Str} (h : us1.Perm us2) :
    us1.insertionSort (fun a b => a ≤ b) = us2.insertionSort (fun a b => a ≤ b) := by
  haveI : IsTotal Str (fun a b : Str => a ≤ b) := ⟨le_total⟩
  haveI : IsTrans Str (fun a b : Str => a ≤ b) := ⟨fun a b c => le_trans⟩
  haveI : IsAntisymm Str (fun a b : Str => a ≤ b) := ⟨fun a b => le_antisymm⟩
  exact List.eq_of_perm_of_sorted
    (((List.perm_insertionSort _ us1).trans h).trans (List.perm_insertionSort _ us2).symm)
    (List.sorted_insertionSort _ us1) (List.sorted_insertionSort _ us2)

/-- C6: `get_or_create_conjunction` derives the conjunction URI from the
sorted list of the conjuncts' URIs, so any two conjunct lists whose resolved
URI lists are permutations of each other (in particular `[X, Y]` versus
`[Y, X]`) produce the same URI and hence resolve to the same node: the whole
call is equal. -/
theorem C6_conjunction_order_independent :
    ∀ (g : Graph) (c1 c2 : List AnyForm) (us1 us2 : List Str),
      c1.mapM (fun c => any_to_uri c g) = .ok us1 →
      c2.mapM (fun c => any_to_uri c g) = .ok us2 →
      us1.Perm us2 →
      get_or_create_conjunction c1 g = get_or_create_conjunction c2 g := by
  intro g c1 c2 us1 us2 h1 h2 hperm
  unfold get_or_create_conjunction
  rw [h1, h2]
  dsimp only []
  rw [insertionSort_perm_eq hperm]

/-- C7: for every source node, target node and weight — including weights
outside `[-1, 1]` — `justify` succeeds: it returns the existing `justifies`
edge if one is present (leaving the store untouched), and otherwise creates
one storing the given weight verbatim; no weight validation of any kind is
performed. -/
theorem C7_justify_weight_verbatim :
    ∀ (g : Graph) (s t : GNode) (w : ℚ),
      ∃ (e : GEdge) (g' : Graph),
        justify (.byNode s) (.byNode t) w g = .ok (e, g') ∧
        e.etype = "justifies".toList ∧
        (get_edge "justifies".toList (.byNode s) (.byNode t) g = .ok none →
          e.weight = some w ∧ e.nodes = (s.nid, t.nid) ∧
          g' = { g with edges := g.edges ++ [e], nextEdgeId := g.nextEdgeId + 1 }) ∧
        (∀ e0, get_edge "justifies".toList (.byNode s) (.byNode t) g = .ok (some e0) →
          e = e0 ∧ g' = g) := by
  intro g s t w
  unfold justify get_or_create_edge
  cases hf : get_edge "justifies".toList (.byNode s) (.byNode t) g with
  | error err => simp [get_edge, get_edges, any_to_id] at hf
  | ok o =>
    cases o with
    | none =>
      refine ⟨_, _, rfl, rfl, fun _ => ⟨rfl, rfl, rfl⟩, fun e0 h0 => ?_⟩
      simp at h0
    | some e0 =>
      have hfind : (g.edges.filter (fun e => decide (e.nodes = (s.nid, t.nid)))).find?
          (fun e => decide (e.etype = "justifies".toList)) = some e0 := by
        have : get_edge "justifies".toList (.byNode s) (.byNode t) g =
            .ok ((g.edges.filter (fun e => decide (e.nodes = (s.nid, t.nid)))).find?
              (fun e => decide (e.etype = "justifies".toList))) := rfl
        rw [this] at hf
        simpa using hf
      have hety := List.find?_some hfind
      simp at hety
      refine ⟨e0, g, rfl, hety, fun hnone => ?_, fun e1 h1 => ?_⟩
      · simp at hnone
      · simp at h1; exact ⟨h1, rfl⟩

theorem goce_byNode_spec (etype : Str) (n1 n2 : GNode) (pos : Option Nat)
    (w : Option ℚ) (g : Graph) :
    ∃ e g', get_or_create_edge etype (.byNode n1) (.byNode n2) pos w g = .ok (e, g') ∧
      g'.nodes = g.nodes ∧
      (∃ tl, g'.edges = g.edges ++ tl ∧ ∀ x ∈ tl, x.etype = etype) ∧
      e ∈ g'.edges ∧ e.etype = etype ∧ e.nodes = (n1.nid, n2.nid) := by
  unfold get_or_create_edge
  cases hf : get_edge etype (.byNode n1) (.byNode n2) g with
  | error err => simp [get_edge, get_edges, any_to_id] at hf
  | ok o =>
    cases o with
    | none =>
      refine ⟨_, _, rfl, rfl, ⟨_, rfl, ?_⟩, ?_, rfl, rfl⟩
      · intro x hx; simp at hx; rw [hx]
      · simp
    | some e0 =>
      have hfind : (g.edges.filter (fun e => decide (e.nodes = (n1.nid, n2.nid)))).find?
          (fun e => decide (e.etype = etype)) = some e0 := by
        have : get_edge etype (.byNode n1) (.byNode n2) g =
            .ok ((g.edges.filter (fun e => decide (e.nodes = (n1.nid, n2.nid)))).find?
              (fun e => decide (e.etype = etype))) := rfl
        rw [this] at hf
        simpa using hf
      have hety := List.find?_some hfind
      have hmemf := List.mem_of_find?_eq_some hfind
      have hmem := List.mem_of_mem_filter hmemf
      have hnodes := List.of_mem_filter hmemf
      simp at hety hnodes
      exact ⟨e0, g, rfl, rfl, ⟨[], by simp, by simp⟩, hmem, hety, hnodes⟩

theorem normalized_pairs_loop_spec :
    ∀ (ps : List (GNode × GNode)) (g : Graph),
      ∃ g', normalized_pairs_loop ps g = .ok g' ∧
        g'.nodes = g.nodes ∧
        (∃ tl, g'.edges = g.edges ++ tl) ∧
        (∀ p ∈ ps, p.1 ≠ p.2 →
          ∃ e2 ∈ g'.edges, e2.etype = "normalized".toList ∧
            e2.nodes = (p.1.nid, p.2.nid)) := by
  intro ps
  induction ps with
  | nil => intro g; exact ⟨g, rfl, rfl, ⟨[], by simp⟩, by simp⟩
  | cons p ps ih =>
    intro g
    obtain ⟨n1, n2⟩ := p
    by_cases hne : n1 = n2
    · obtain ⟨g', hloop, hn, htl, hp⟩ := ih g
      refine ⟨g', ?_, hn, htl, ?_⟩
      · rw [normalized_pairs_loop, if_pos hne]
        exact hloop
      · intro q hq hq2
        rcases List.mem_cons.mp hq with h | h
        · exact absurd (by rw [h] at hq2 ⊢; exact hne) hq2
        · exact hp q h hq2
    · obtain ⟨e, g1, hgoce, hn1, ⟨tl1, he1, _⟩, hmem, hety, hnds⟩ :=
        goce_byNode_spec "normalized".toList n1 n2 none none g
      obtain ⟨g', hloop, hn, ⟨tl, htl⟩, hp⟩ := ih g1
      refine ⟨g', ?_, by rw [hn, hn1], ⟨tl1 ++ tl, by rw [htl, he1, List.append_assoc]⟩, ?_⟩
      · rw [normalized_pairs_loop, if_neg hne, hgoce]
        exact hloop
      · intro q hq hq2
        rcases List.mem_cons.mp hq with h | h
        · refine ⟨e, ?_, hety, by rw [h]; exact hnds⟩
          rw [htl]; exact List.mem_append_left _ hmem
        · exact hp q h hq2

theorem get_rel_and_args_never_ok (a : AnyForm) (g : Graph) :
    ∀ L, get_rel_and_args a g ≠ .ok L := by
  intro L h
  unfold get_rel_and_args at h
  cases hn : any_to_node0 a g with
  | error e => rw [hn] at h; exact Except.noConfusion h
  | ok n => rw [hn] at h; exact Except.noConfusion h

/-- C4: the `assert weight > 0` guard rejects every non-positive weight as
claimed, but for positive weight `derive_normalized` never succeeds.  Line
632 binds `rel_edge` to `assertion.relationships.outgoing(types=['relation'][0])`
— `['relation'][0]` indexes the literal list, so the call passes the string
`'relation'` and returns a sequence of edges (the identical call two lines
up is sliced with `[:]`) — and `rel_edge.end` then raises `AttributeError`
unconditionally whenever the source assertion resolves to a node.  The
claimed per-pair `normalized` propagation is never reached; the error
escapes after the assertion-level `normalized` and `justifies` edges were
already written. -/
theorem C4_derive_normalized_attribute_error :
    ∀ (g : Graph) (s t : AnyForm) (w : ℚ),
      (w ≤ 0 → derive_normalized s t w g =
        .error (.assertionError "weight".toList)) ∧
      (∀ n, any_to_node0 s g = .ok n →
        get_rel_and_args s g = .error (.attributeError "end".toList)) ∧
      (0 < w → ∀ r, derive_normalized s t w g ≠ .ok r) := by
  intro g s t w
  refine ⟨fun hw => ?_, fun n hn => ?_, fun hw r hok => ?_⟩
  · rw [derive_normalized, if_neg (by exact not_lt.mpr hw)]
  · unfold get_rel_and_args
    rw [hn]
  · rw [derive_normalized, if_pos hw] at hok
    cases hgoce : get_or_create_edge "normalized".toList s t none none g with
    | error e => rw [hgoce] at hok; exact Except.noConfusion hok
    | ok p =>
      obtain ⟨e1, g1⟩ := p
      rw [hgoce] at hok
      dsimp only [] at hok
      cases hjust : justify s t w g1 with
      | error e => rw [hjust] at hok; exact Except.noConfusion hok
      | ok q =>
        obtain ⟨ej, g2⟩ := q
        rw [hjust] at hok
        dsimp only [] at hok
        cases hra : get_rel_and_args s g2 with
        | error e => rw [hra] at hok; exact Except.noConfusion hok
        | ok L => exact get_rel_and_args_never_ok s g2 L hra

/-- The compact item serialization `list_to_uri_piece` yields once the
separator spaces are removed (for elements that contain no space). -/
def compactItems : List Str → Str
  | [] => []
  | s :: rest => quoteJson s ++ rest.flatMap (fun t => ',' :: quoteJson t)

theorem lowerHexDigit_ne_space (n : Nat) : lowerHexDigit n ≠ ' ' := by
  unfold lowerHexDigit
  by_cases h : n < 16
  · interval_cases n <;> decide
  · rw [List.getD_eq_default _ _ (by simpa using by omega)]
    decide

theorem space_not_mem_escape {c : Char} (hc : c ≠ ' ') : ' ' ∉ escapeJsonChar c := by
  unfold escapeJsonChar
  split_ifs with h1 h2 h3 h4 h5 h6 h7 h8
  · decide
  · decide
  · decide
  · decide
  · decide
  · decide
  · decide
  · intro hmem
    simp [escSeq] at hmem
    rcases hmem with h | h
    · exact lowerHexDigit_ne_space _ h.symm
    · exact lowerHexDigit_ne_space _ h.symm
  · intro hmem
    simp at hmem
    exact hc hmem.symm

theorem quoteJson_filter {s : Str} (hs : ' ' ∉ s) :
    (quoteJson s).filter (fun c => c ≠ ' ') = quoteJson s := by
  apply List.filter_eq_self.mpr
  intro a ha
  unfold quoteJson at ha
  simp only [List.cons_append, List.mem_cons, List.mem_append] at ha
  rcases ha with h | h | h
  · rw [h]; decide
  · obtain ⟨c, hcs, hce⟩ := List.mem_flatMap.mp h
    have hc : c ≠ ' ' := fun hcc => hs (hcc ▸ hcs)
    have : a ≠ ' ' := fun haa => space_not_mem_escape hc (haa ▸ hce)
    simpa using this
  · simp at h; rw [h]; decide

theorem dumpsItems_filter : ∀ (L : List Str), (∀ s ∈ L, ' ' ∉ s) →
    (dumpsItems L).filter (fun c => c ≠ ' ') = compactItems L := by
  intro L
  induction L with
  | nil => intro _; rfl
  | cons s rest ih =>
    intro h
    cases rest with
    | nil =>
      simp only [dumpsItems, compactItems, List.flatMap_nil, List.append_nil]
      exact quoteJson_filter (h s (by simp))
    | cons r rs =>
      have hmain := ih (fun t ht => h t (List.mem_cons_of_mem s ht))
      simp only [dumpsItems, compactItems] at hmain ⊢
      rw [List.filter_append, quoteJson_filter (h s (by simp)),
          List.filter_cons_of_pos (by decide), List.filter_cons_of_neg (by decide),
          hmain]
      simp [List.flatMap_cons, List.append_assoc]

theorem list_to_uri_piece_compact {L : List Str} (h : ∀ s ∈ L, ' ' ∉ s) :
    list_to_uri_piece L = '[' :: compactItems L ++ [']'] := by
  unfold list_to_uri_piece json_dumps_list
  rw [show ('[' :: dumpsItems L ++ [']'] : Str) = '[' :: (dumpsItems L ++ [']']) by simp,
      List.filter_cons_of_pos (by decide), List.filter_append, dumpsItems_filter L h]
  simp

theorem hexVal_lowerHexDigit {n : Nat} (h : n < 16) : hexVal (lowerHexDigit n) = some n := by
  interval_cases n <;> decide

theorem parseStringBody_quote (s : Str) :
    ∀ (fuel : Nat) (rest : Str), s.length < fuel →
      parseStringBody fuel (s.flatMap escapeJsonChar ++ '"' :: rest) =
        some (s, rest) := by
  induction s with
  | nil =>
    intro fuel rest hf
    cases fuel with
    | zero => omega
    | succ f => rfl
  | cons c cs ih =>
    intro fuel rest hf
    cases fuel with
    | zero => omega
    | succ f =>
    have hcs : cs.length < f := by simp at hf; omega
    simp only [List.flatMap_cons, List.append_assoc]
    by_cases h1 : c = '"'
    · subst h1
      have hstep : parseStringBody (f + 1)
          (escapeJsonChar '"' ++ (cs.flatMap escapeJsonChar ++ '"' :: rest)) =
          (parseStringBody f (cs.flatMap escapeJsonChar ++ '"' :: rest)).map
            (fun p => ('"' :: p.1, p.2)) := rfl
      rw [hstep, ih f rest hcs]
      rfl
    · by_cases h2 : c = '\\'
      · subst h2
        have hstep : parseStringBody (f + 1)
            (escapeJsonChar '\\' ++ (cs.flatMap escapeJsonChar ++ '"' :: rest)) =
            (parseStringBody f (cs.flatMap escapeJsonChar ++ '"' :: rest)).map
              (fun p => ('\\' :: p.1, p.2)) := rfl
        rw [hstep, ih f rest hcs]
        rfl
      · by_cases h3 : c = '\x08'
        · subst h3
          have hstep : parseStringBody (f + 1)
              (escapeJsonChar '\x08' ++ (cs.flatMap escapeJsonChar ++ '"' :: rest)) =
              (parseStringBody f (cs.flatMap escapeJsonChar ++ '"' :: rest)).map
                (fun p => ('\x08' :: p.1, p.2)) := rfl
          rw [hstep, ih f rest hcs]
          rfl
        · by_cases h4 : c = '\x0c'
          · subst h4
            have hstep : parseStringBody (f + 1)
                (escapeJsonChar '\x0c' ++ (cs.flatMap escapeJsonChar ++ '"' :: rest)) =
                (parseStringBody f (cs.flatMap escapeJsonChar ++ '"' :: rest)).map
                  (fun p => ('\x0c' :: p.1, p.2)) := rfl
            rw [hstep, ih f rest hcs]
            rfl
          · by_cases h5 : c = '\n'
            · subst h5
              have hstep : parseStringBody (f + 1)
                  (escapeJsonChar '\n' ++ (cs.flatMap escapeJsonChar ++ '"' :: rest)) =
                  (parseStringBody f (cs.flatMap escapeJsonChar ++ '"' :: rest)).map
                    (fun p => ('\n' :: p.1, p.2)) := rfl
              rw [hstep, ih f rest hcs]
              rfl
            · by_cases h6 : c = '\x0d'
              · subst h6
                have hstep : parseStringBody (f + 1)
                    (escapeJsonChar '\x0d' ++ (cs.flatMap escapeJsonChar ++ '"' :: rest)) =
                    (parseStringBody f (cs.flatMap escapeJsonChar ++ '"' :: rest)).map
                      (fun p => ('\x0d' :: p.1, p.2)) := rfl
                rw [hstep, ih f rest hcs]
                rfl
              · by_cases h7 : c = '\t'
                · subst h7
                  have hstep : parseStringBody (f + 1)
                      (escapeJsonChar '\t' ++ (cs.flatMap escapeJsonChar ++ '"' :: rest)) =
                      (parseStringBody f (cs.flatMap escapeJsonChar ++ '"' :: rest)).map
                        (fun p => ('\t' :: p.1, p.2)) := rfl
                  rw [hstep, ih f rest hcs]
                  rfl
                · by_cases h8 : c.toNat < 0x20
                  · rw [escapeJsonChar, if_neg h1, if_neg h2, if_neg h3, if_neg h4,
                        if_neg h5, if_neg h6, if_neg h7, if_pos h8]
                    have hdiv : c.toNat / 16 < 16 := by omega
                    have hmod : c.toNat % 16 < 16 := Nat.mod_lt _ (by omega)
                    simp only [escSeq, List.cons_append, List.nil_append]
                    rw [parseStringBody.eq_def]
                    dsimp only []
                    rw [if_neg (by decide), if_pos rfl]
                    simp only [if_neg (show ¬('u' : Char) = '"' by decide),
                      if_neg (show ¬('u' : Char) = '\\' by decide),
                      if_neg (show ¬('u' : Char) = '/' by decide),
                      if_neg (show ¬('u' : Char) = 'b' by decide),
                      if_neg (show ¬('u' : Char) = 'f' by decide),
                      if_neg (show ¬('u' : Char) = 'n' by decide),
                      if_neg (show ¬('u' : Char) = 'r' by decide),
                      if_neg (show ¬('u' : Char) = 't' by decide),
                      if_pos (show ('u' : Char) = 'u' from rfl)]
                    rw [show hexVal '0' = some 0 from rfl,
                        hexVal_lowerHexDigit hdiv, hexVal_lowerHexDigit hmod]
                    dsimp only []
                    have harith : ((0 * 16 + 0) * 16 + c.toNat / 16) * 16 + c.toNat % 16 =
                        c.toNat := by omega
                    rw [harith, Char.ofNat_toNat, ih f rest hcs]
                    rfl
                  · rw [escapeJsonChar, if_neg h1, if_neg h2, if_neg h3, if_neg h4,
                        if_neg h5, if_neg h6, if_neg h7, if_neg h8]
                    simp only [List.cons_append, List.nil_append]
                    rw [parseStringBody.eq_def]
                    dsimp only []
                    rw [if_neg h1, if_neg h2, if_neg h8, ih f rest hcs]
                    rfl

theorem escapeJsonChar_length_pos (c : Char) : 1 ≤ (escapeJsonChar c).length := by
  unfold escapeJsonChar
  split_ifs <;> simp [escSeq]

theorem length_le_flatMap_escape (s : Str) :
    s.length ≤ (s.flatMap escapeJsonChar).length := by
  induction s with
  | nil => simp
  | cons c cs ih =>
    simp only [List.flatMap_cons, List.length_append, List.length_cons]
    have := escapeJsonChar_length_pos c
    omega

theorem length_le_flatMap_commaQuote (ls : List Str) :
    ls.length ≤ (ls.flatMap (fun t => ',' :: quoteJson t)).length := by
  induction ls with
  | nil => simp
  | cons t ls ih =>
    simp only [List.flatMap_cons, List.length_append, List.length_cons]
    omega

theorem skipWs_cons_not (c : Char) (l : Str) (h : jsonWs c = false) :
    skipWs (c :: l) = c :: l := by
  simp [skipWs, List.dropWhile_cons, h]

theorem parseCommaItems_encTail : ∀ (ls : List Str) (fuel : Nat) (rest : Str),
    ls.length < fuel →
    parseCommaItems fuel (ls.flatMap (fun t => ',' :: quoteJson t) ++ ']' :: rest) =
      some (ls, rest) := by
  intro ls
  induction ls with
  | nil =>
    intro fuel rest hf
    cases fuel with
    | zero => omega
    | succ f => rfl
  | cons t ls ih =>
    intro fuel rest hf
    cases fuel with
    | zero => omega
    | succ f =>
    have hlt : ls.length < f := by simp at hf; omega
    simp only [List.flatMap_cons, List.cons_append, List.append_assoc]
    rw [parseCommaItems.eq_def]
    dsimp only []
    rw [skipWs_cons_not _ _ (by decide)]
    dsimp only []
    rw [if_neg (by decide), if_pos rfl]
    rw [show quoteJson t = '"' :: (t.flatMap escapeJsonChar ++ ['"']) from rfl]
    simp only [List.cons_append, List.append_assoc, List.singleton_append,
      List.nil_append]
    rw [skipWs_cons_not _ _ (by decide)]
    dsimp only []
    rw [if_pos rfl]
    have hlen : t.length <
        (t.flatMap escapeJsonChar ++
          '"' :: (ls.flatMap (fun t => ',' :: quoteJson t) ++ ']' :: rest)).length + 1 := by
      have := length_le_flatMap_escape t
      simp only [List.length_append, List.length_cons]
      omega
    rw [parseStringBody_quote t _ _ hlen]
    dsimp only []
    rw [ih f rest hlt]

theorem parseJsonStrList_compact : ∀ L : List Str,
    parseJsonStrList ('[' :: (compactItems L ++ [']'])) = some L := by
  intro L
  cases L with
  | nil => rfl
  | cons s ls =>
    unfold parseJsonStrList
    rw [skipWs_cons_not _ _ (by decide)]
    dsimp only []
    rw [if_pos rfl]
    rw [show compactItems (s :: ls) =
        quoteJson s ++ ls.flatMap (fun t => ',' :: quoteJson t) from rfl]
    rw [show quoteJson s = '"' :: (s.flatMap escapeJsonChar ++ ['"']) from rfl]
    simp only [List.cons_append, List.append_assoc, List.singleton_append,
      List.nil_append]
    rw [skipWs_cons_not _ _ (by decide)]
    dsimp only []
    rw [if_neg (by decide), if_pos rfl]
    have hlen : s.length <
        (s.flatMap escapeJsonChar ++
          '"' :: (ls.flatMap (fun t => ',' :: quoteJson t) ++ [']'])).length + 1 := by
      have := length_le_flatMap_escape s
      simp only [List.length_append, List.length_cons]
      omega
    rw [parseStringBody_quote s _ _ hlen]
    dsimp only []
    have hll : ls.length <
        (ls.flatMap (fun t => ',' :: quoteJson t) ++ [']']).length + 1 := by
      have := length_le_flatMap_commaQuote ls
      simp only [List.length_append]
      omega
    rw [show (ls.flatMap (fun t => ',' :: quoteJson t) ++ [']'] : Str) =
        ls.flatMap (fun t => ',' :: quoteJson t) ++ ']' :: [] by simp]
    rw [parseCommaItems_encTail ls _ [] (by simpa using hll)]
    rfl

/-- C2 (amended): `uri_piece_to_list` inverts `list_to_uri_piece` on every
list of strings whose elements contain no space character (non-ASCII content
and JSON-escaped characters round-trip); for elements containing spaces the
encoder strips the spaces (see the counterexample), so the inverse law as
originally claimed does not hold there. -/
theorem C2_roundtrip_space_free :
    ∀ L : List Str, (∀ s ∈ L, ' ' ∉ s) →
      uri_piece_to_list (list_to_uri_piece L) = .ok L := by
  intro L h
  rw [list_to_uri_piece_compact h]
  unfold uri_piece_to_list
  rw [show ('[' :: compactItems L ++ [']'] : Str) = '[' :: (compactItems L ++ [']'])
      by simp, parseJsonStrList_compact]

/-- C2 counterexample: `list_to_uri_piece` deletes every space character,
including spaces inside elements, so decoding its output on `["a b"]` yields
`["ab"]`, not the original list — the claimed inverse law fails for elements
containing spaces. -/
theorem C2_roundtrip_counterexample :
    uri_piece_to_list (list_to_uri_piece ["a b".toList]) = .ok ["ab".toList] ∧
    ["ab".toList] ≠ ["a b".toList] := by
  constructor <;> decide

/-- The `arg` edges `_create_assertion_w_components`'s loop appends for the
listed argument nodes, starting at 0-based index `i` (stored position
`i + 1`) and edge id `eid`. -/
def arg_edges_spec (aid : Nat) : List GNode → Nat → Nat → List GEdge
  | [], _, _ => []
  | n :: rest, i, eid =>
    { eid := eid, etype := "arg".toList, startId := aid, endId := n.nid,
      position := some (i + 1), weight := none, nodes := (aid, n.nid) } ::
      arg_edges_spec aid rest (i + 1) (eid + 1)

/-- The expected 1-based position/target pairs of an assertion's `arg`
edges, in argument order. -/
def arg_pairs : List GNode → Nat → List (Option Nat × Nat)
  | [], _ => []
  | n :: rest, i => (some (i + 1), n.nid) :: arg_pairs rest (i + 1)

theorem arg_edges_spec_mem {aid : Nat} :
    ∀ {ns : List GNode} {i eid : Nat} {x : GEdge}, x ∈ arg_edges_spec aid ns i eid →
      x.etype = "arg".toList ∧ x.startId = aid := by
  intro ns
  induction ns with
  | nil => intro i eid x hx; simp [arg_edges_spec] at hx
  | cons n rest ih =>
    intro i eid x hx
    rw [arg_edges_spec] at hx
    rcases List.mem_cons.mp hx with h | h
    · rw [h]; exact ⟨rfl, rfl⟩
    · exact ih h

theorem arg_edges_spec_map {aid : Nat} :
    ∀ (ns : List GNode) (i eid : Nat),
      (arg_edges_spec aid ns i eid).map (fun e => (e.position, e.endId)) =
        arg_pairs ns i := by
  intro ns
  induction ns with
  | nil => intro i eid; rfl
  | cons n rest ih => intro i eid; simp [arg_edges_spec, arg_pairs, ih]

theorem create_arg_edges_eq (a : GNode) : ∀ (ns : List GNode) (i : Nat) (g : Graph),
    create_arg_edges a (ns.map .byNode) i g =
      .ok { g with edges := g.edges ++ arg_edges_spec a.nid ns i g.nextEdgeId,
                   nextEdgeId := g.nextEdgeId + ns.length } := by
  intro ns
  induction ns with
  | nil => intro i g; simp [create_arg_edges, arg_edges_spec]
  | cons n rest ih =>
    intro i g
    rw [List.map_cons, create_arg_edges, create_edge]
    dsimp only [any_to_node0]
    rw [ih]
    simp [arg_edges_spec, List.append_assoc]
    omega

theorem create_assertion_w_components_eq (uri : Str) (rn : GNode) (ans : List GNode)
    (props : List (Str × Str)) (g : Graph) :
    create_assertion_w_components uri (.byNode rn) (ans.map .byNode) props g =
      .ok ({ ntype := "assertion".toList, uri := uri, score := some 0,
             props := props, nid := g.nextNodeId },
           { nodes := g.nodes ++ [{ ntype := "assertion".toList, uri := uri,
                                    score := some 0, props := props,
                                    nid := g.nextNodeId }],
             edges := g.edges ++
               { eid := g.nextEdgeId, etype := "relation".toList,
                 startId := g.nextNodeId, endId := rn.nid,
                 nodes := (g.nextNodeId, rn.nid) } ::
               arg_edges_spec g.nextNodeId ans 0 (g.nextEdgeId + 1),
             nextNodeId := g.nextNodeId + 1,
             nextEdgeId := g.nextEdgeId + 1 + ans.length }) := by
  unfold create_assertion_w_components
  dsimp only [create_node_raw]
  rw [create_edge]
  dsimp only [any_to_node0]
  rw [create_arg_edges_eq]
  simp [List.append_assoc]

theorem anyNode_uri {a : AnyForm} {g : Graph} {n : GNode}
    (h : any_to_node0 a g = .ok n) : any_to_uri a g = .ok n.uri := by
  cases a with
  | byNode m => simp [any_to_node0] at h; rw [← h]; rfl
  | byUri u =>
    rw [any_to_node0] at h
    split at h
    · simp at h
    · rename_i hget
      simp only [Except.ok.injEq] at h
      subst h
      rw [any_to_uri, ← get_node_some_uri hget]
    · simp at h
  | byId i =>
    rw [any_to_node0] at h
    rw [any_to_uri, h]
    rfl

theorem anyNode_create {fuel : Nat} {a : AnyForm} {g : Graph} {n : GNode}
    (h : any_to_node0 a g = .ok n) : any_to_node_create fuel a g = .ok (n, g) := by
  cases a with
  | byNode m => simp [any_to_node0] at h; rw [any_to_node_create, h]
  | byUri u =>
    rw [any_to_node0] at h
    split at h
    · simp at h
    · rename_i hget
      simp only [Except.ok.injEq] at h
      rw [any_to_node_create, hget, h]
    · simp at h
  | byId i =>
    rw [any_to_node0] at h
    rw [any_to_node_create, h]
    rfl

theorem anyNode_uri_mono {a : AnyForm} {g g1 : Graph} {extra : List GNode} {n : GNode}
    (h : any_to_node0 a g = .ok n) (hg : g1.nodes = g.nodes ++ extra) :
    any_to_uri a g1 = .ok n.uri := by
  cases a with
  | byNode m => simp [any_to_node0] at h; rw [← h]; rfl
  | byUri u =>
    have := anyNode_uri h
    rw [any_to_uri] at this ⊢
    exact this
  | byId i =>
    rw [any_to_node0, get_node_by_id] at h
    rw [any_to_uri, get_node_by_id, hg]
    split at h
    · rename_i m hfind
      rw [List.find?_append, hfind]
      simp at h
      rw [h]
      rfl
    · simp at h

theorem anyNode_list_uri {g : Graph} :
    ∀ {args : List AnyForm} {ans : List GNode},
      any_to_node0_list args g = .ok ans →
      any_to_uri_list args g = .ok (ans.map (fun n => n.uri)) := by
  intro args
  induction args with
  | nil =>
    intro ans h
    rw [any_to_node0_list] at h
    simp only [Except.ok.injEq] at h
    subst h
    rfl
  | cons x xs ih =>
    intro ans h
    rw [any_to_node0_list] at h
    cases hx : any_to_node0 x g with
    | error e => rw [hx] at h; exact Except.noConfusion h
    | ok n =>
      simp only [hx] at h
      cases hxs : any_to_node0_list xs g with
      | error e => rw [hxs] at h; exact Except.noConfusion h
      | ok ns =>
        simp only [hxs, Except.ok.injEq] at h
        subst h
        rw [any_to_uri_list, anyNode_uri hx, ih hxs]
        rfl

theorem anyNode_list_uri_mono {g g1 : Graph} {extra : List GNode}
    (hg : g1.nodes = g.nodes ++ extra) :
    ∀ {args : List AnyForm} {ans : List GNode},
      any_to_node0_list args g = .ok ans →
      any_to_uri_list args g1 = .ok (ans.map (fun n => n.uri)) := by
  intro args
  induction args with
  | nil =>
    intro ans h
    rw [any_to_node0_list] at h
    simp only [Except.ok.injEq] at h
    subst h
    rfl
  | cons x xs ih =>
    intro ans h
    rw [any_to_node0_list] at h
    cases hx : any_to_node0 x g with
    | error e => rw [hx] at h; exact Except.noConfusion h
    | ok n =>
      simp only [hx] at h
      cases hxs : any_to_node0_list xs g with
      | error e => rw [hxs] at h; exact Except.noConfusion h
      | ok ns =>
        simp only [hxs, Except.ok.injEq] at h
        subst h
        rw [any_to_uri_list, anyNode_uri_mono hx hg, ih hxs]
        rfl

theorem anyNode_list_create {fuel : Nat} {g : Graph} :
    ∀ {args : List AnyForm} {ans : List GNode},
      any_to_node0_list args g = .ok ans →
      any_to_node_create_list fuel args g = .ok (ans, g) := by
  intro args
  induction args with
  | nil =>
    intro ans h
    rw [any_to_node0_list] at h
    simp only [Except.ok.injEq] at h
    subst h
    rfl
  | cons x xs ih =>
    intro ans h
    rw [any_to_node0_list] at h
    cases hx : any_to_node0 x g with
    | error e => rw [hx] at h; exact Except.noConfusion h
    | ok n =>
      simp only [hx] at h
      cases hxs : any_to_node0_list xs g with
      | error e => rw [hxs] at h; exact Except.noConfusion h
      | ok ns =>
        simp only [hxs, Except.ok.injEq] at h
        subst h
        rw [any_to_node_create_list, anyNode_create hx]
        dsimp only []
        rw [ih hxs]

theorem get_node_none_filter {uri : Str} {g : Graph}
    (h : get_node uri g = .ok none) :
    g.nodes.filter (fun n => decide (n.uri = normalize_uri uri)) = [] := by
  unfold get_node at h
  dsimp only [] at h
  split at h
  · assumption
  · simp at h
  · simp at h

theorem pyStrip_shape {a b : Char} (mid : Str) (ha : pyIsSpace a = false)
    (hb : pyIsSpace b = false) :
    pyStrip (a :: (mid ++ [b])) = a :: (mid ++ [b]) := by
  unfold pyStrip
  rw [List.dropWhile_cons]
  simp only [ha, Bool.false_eq_true, if_false]
  rw [show (a :: (mid ++ [b])).reverse = b :: (mid.reverse ++ [a]) by simp]
  rw [List.dropWhile_cons]
  simp only [hb, Bool.false_eq_true, if_false]
  simp

theorem map_space_id : ∀ {l : Str}, (∀ c ∈ l, c ≠ ' ') →
    l.map (fun c => if c = ' ' then '_' else c) = l := by
  intro l
  induction l with
  | nil => intro _; rfl
  | cons c cs ih =>
    intro h
    rw [List.map_cons, if_neg (h c (List.mem_cons_self c cs)),
        ih (fun x hx => h x (List.mem_cons_of_mem c hx))]

theorem make_assertion_uri_shape (r : Str) (as : List Str) :
    make_assertion_uri r as =
      '/' :: (("assertion/".toList ++
        ('[' :: dumpsItems (r :: as)).filter (fun c => c ≠ ' ')) ++ [']']) := by
  unfold make_assertion_uri list_to_uri_piece json_dumps_list
  rw [show ('[' :: dumpsItems (r :: as) ++ [']'] : Str) =
      ('[' :: dumpsItems (r :: as)) ++ [']'] by simp]
  rw [List.filter_append]
  rw [show List.filter (fun c => decide (c ≠ ' ')) [']'] = [']'] from rfl]
  simp

theorem make_assertion_uri_no_space (r : Str) (as : List Str) :
    ∀ c ∈ make_assertion_uri r as, c ≠ ' ' := by
  intro c hc
  unfold make_assertion_uri list_to_uri_piece at hc
  rcases List.mem_append.mp hc with h | h
  · have hd : ∀ x ∈ "/assertion/".toList, x ≠ ' ' := by decide
    exact hd c h
  · have := List.of_mem_filter h
    simpa using this

theorem normalize_make_assertion_uri (r : Str) (as : List Str) :
    normalize_uri (make_assertion_uri r as) = make_assertion_uri r as := by
  unfold normalize_uri
  have hstrip : pyStrip (make_assertion_uri r as) = make_assertion_uri r as := by
    rw [make_assertion_uri_shape]
    exact pyStrip_shape _ (by decide) (by decide)
  rw [hstrip]
  exact map_space_id (make_assertion_uri_no_space r as)

/-- The assertion node `_create_assertion_w_components` creates. -/
def assertion_result_node (uri : Str) (props : List (Str × Str)) (g : Graph) : GNode :=
  { ntype := "assertion".toList, uri := uri, score := some 0, props := props,
    nid := g.nextNodeId }

/-- The store state after `_create_assertion_w_components`: the assertion
node, its `relation` edge, and its positioned `arg` edges are appended. -/
def assertion_result_graph (uri : Str) (rn : GNode) (ans : List GNode)
    (props : List (Str × Str)) (g : Graph) : Graph :=
  { nodes := g.nodes ++ [assertion_result_node uri props g],
    edges := g.edges ++
      { eid := g.nextEdgeId, etype := "relation".toList, startId := g.nextNodeId,
        endId := rn.nid, nodes := (g.nextNodeId, rn.nid) } ::
      arg_edges_spec g.nextNodeId ans 0 (g.nextEdgeId + 1),
    nextNodeId := g.nextNodeId + 1,
    nextEdgeId := g.nextEdgeId + 1 + ans.length }

theorem create_assertion_w_components_result (uri : Str) (rn : GNode)
    (ans : List GNode) (props : List (Str × Str)) (g : Graph) :
    create_assertion_w_components uri (.byNode rn) (ans.map .byNode) props g =
      .ok (assertion_result_node uri props g,
           assertion_result_graph uri rn ans props g) := by
  rw [create_assertion_w_components_eq]
  rfl

/-- C1: `get_or_create_assertion` derives the assertion URI as
`"/assertion/" + encode([relationURI, arg1URI, ..])` from arguments given in
any resolvable form (node, URI or id).  When no node with that URI exists
yet, the call creates the assertion; a second call — with the same or any
URI-equivalent arguments — returns the identical node and leaves the store
unchanged; and afterwards exactly one node carries the derived URI, exactly
one `relation` edge and exactly `n` `arg` edges (1-based positions, in
argument order) leave the assertion. -/
theorem C1_assertion_get_or_create
    (g : Graph) (fuel : Nat) (relation : AnyForm) (args : List AnyForm)
    (props props2 : List (Str × Str)) (rn : GNode) (ans : List GNode)
    (hWF : g.WF)
    (hrel : any_to_node0 relation g = .ok rn)
    (hargs : any_to_node0_list args g = .ok ans)
    (hfresh : get_node (make_assertion_uri rn.uri (ans.map (fun n => n.uri))) g =
      .ok none) :
    ∃ (a : GNode) (g1 : Graph),
      get_or_create_assertion fuel relation args props g = .ok (a, g1) ∧
      a.uri = make_assertion_uri rn.uri (ans.map (fun n => n.uri)) ∧
      a.ntype = "assertion".toList ∧
      (∀ (relation2 : AnyForm) (args2 : List AnyForm) (props3 : List (Str × Str)),
        any_to_uri relation2 g1 = .ok rn.uri →
        any_to_uri_list args2 g1 = .ok (ans.map (fun n => n.uri)) →
        get_or_create_assertion fuel relation2 args2 props3 g1 = .ok (a, g1)) ∧
      get_or_create_assertion fuel relation args props2 g1 = .ok (a, g1) ∧
      g1.nodes.filter (fun n => decide (n.uri = a.uri)) = [a] ∧
      (g1.edges.filter (fun e => decide (e.etype = "relation".toList) &&
          decide (e.startId = a.nid))).map (fun e => e.endId) = [rn.nid] ∧
      (g1.edges.filter (fun e => decide (e.etype = "arg".toList) &&
          decide (e.startId = a.nid))).map (fun e => (e.position, e.endId)) =
        arg_pairs ans 0 := by
  have hmain : get_or_create_assertion fuel relation args props g =
      .ok (assertion_result_node (make_assertion_uri rn.uri (ans.map (fun n => n.uri)))
             props g,
           assertion_result_graph (make_assertion_uri rn.uri (ans.map (fun n => n.uri)))
             rn ans props g) := by
    unfold get_or_create_assertion
    rw [anyNode_uri hrel]
    dsimp only []
    rw [anyNode_list_uri hargs]
    dsimp only []
    rw [hfresh]
    dsimp only []
    rw [anyNode_create hrel]
    dsimp only []
    rw [anyNode_list_create hargs]
    dsimp only []
    rw [create_assertion_w_components_result]
  have hnil := get_node_none_filter hfresh
  rw [normalize_make_assertion_uri] at hnil
  have hget1 : get_node (make_assertion_uri rn.uri (ans.map (fun n => n.uri)))
      (assertion_result_graph (make_assertion_uri rn.uri (ans.map (fun n => n.uri)))
        rn ans props g) =
      .ok (some (assertion_result_node
        (make_assertion_uri rn.uri (ans.map (fun n => n.uri))) props g)) := by
    unfold get_node
    dsimp only [assertion_result_graph]
    rw [normalize_make_assertion_uri, List.filter_append, hnil]
    simp [assertion_result_node]
  have hgen : ∀ (relation2 : AnyForm) (args2 : List AnyForm)
      (props3 : List (Str × Str)),
      any_to_uri relation2
        (assertion_result_graph (make_assertion_uri rn.uri (ans.map (fun n => n.uri)))
          rn ans props g) = .ok rn.uri →
      any_to_uri_list args2
        (assertion_result_graph (make_assertion_uri rn.uri (ans.map (fun n => n.uri)))
          rn ans props g) = .ok (ans.map (fun n => n.uri)) →
      get_or_create_assertion fuel relation2 args2 props3
        (assertion_result_graph (make_assertion_uri rn.uri (ans.map (fun n => n.uri)))
          rn ans props g) =
        .ok (assertion_result_node
               (make_assertion_uri rn.uri (ans.map (fun n => n.uri))) props g,
             assertion_result_graph
               (make_assertion_uri rn.uri (ans.map (fun n => n.uri))) rn ans props g) := by
    intro relation2 args2 props3 h2u h2l
    unfold get_or_create_assertion
    rw [h2u]
    dsimp only []
    rw [h2l]
    dsimp only []
    rw [hget1]
  have hGnodes : (assertion_result_graph
      (make_assertion_uri rn.uri (ans.map (fun n => n.uri))) rn ans props g).nodes =
      g.nodes ++ [assertion_result_node
        (make_assertion_uri rn.uri (ans.map (fun n => n.uri))) props g] := rfl
  refine ⟨assertion_result_node _ props g, assertion_result_graph _ rn ans props g,
    hmain, rfl, rfl, hgen,
    hgen relation args props2 (anyNode_uri_mono hrel hGnodes)
      (anyNode_list_uri_mono hGnodes hargs), ?_, ?_, ?_⟩
  · dsimp only [assertion_result_graph]
    rw [show (assertion_result_node
          (make_assertion_uri rn.uri (ans.map (fun n => n.uri))) props g).uri =
        make_assertion_uri rn.uri (ans.map (fun n => n.uri)) from rfl]
    rw [List.filter_append, hnil]
    simp [assertion_result_node]
  · dsimp only [assertion_result_graph]
    rw [List.filter_append]
    have h0 : g.edges.filter (fun e => decide (e.etype = "relation".toList) &&
        decide (e.startId = (assertion_result_node
          (make_assertion_uri rn.uri (ans.map (fun n => n.uri))) props g).nid)) = [] := by
      apply List.filter_eq_nil_iff.mpr
      intro e he
      simp only [Bool.and_eq_true, decide_eq_true_eq, not_and]
      intro _ h2
      have hlt := (hWF.2 e he).1
      have h2' : e.startId = g.nextNodeId := h2
      omega
    rw [h0]
    rw [List.filter_cons_of_pos (by simp [assertion_result_node])]
    have h1 : (arg_edges_spec g.nextNodeId ans 0 (g.nextEdgeId + 1)).filter
        (fun e => decide (e.etype = "relation".toList) &&
          decide (e.startId = (assertion_result_node
            (make_assertion_uri rn.uri (ans.map (fun n => n.uri))) props g).nid)) = [] := by
      apply List.filter_eq_nil_iff.mpr
      intro x hx
      simp only [Bool.and_eq_true, decide_eq_true_eq, not_and]
      intro hx1 _
      rw [(arg_edges_spec_mem hx).1] at hx1
      exact absurd hx1 (by decide)
    rw [h1]
    rfl
  · dsimp only [assertion_result_graph]
    rw [List.filter_append]
    have h0 : g.edges.filter (fun e => decide (e.etype = "arg".toList) &&
        decide (e.startId = (assertion_result_node
          (make_assertion_uri rn.uri (ans.map (fun n => n.uri))) props g).nid)) = [] := by
      apply List.filter_eq_nil_iff.mpr
      intro e he
      simp only [Bool.and_eq_true, decide_eq_true_eq, not_and]
      intro _ h2
      have hlt := (hWF.2 e he).1
      have h2' : e.startId = g.nextNodeId := h2
      omega
    rw [h0]
    rw [List.filter_cons_of_neg (by simp)]
    have h1 : (arg_edges_spec g.nextNodeId ans 0 (g.nextEdgeId + 1)).filter
        (fun e => decide (e.etype = "arg".toList) &&
          decide (e.startId = (assertion_result_node
            (make_assertion_uri rn.uri (ans.map (fun n => n.uri))) props g).nid)) =
        arg_edges_spec g.nextNodeId ans 0 (g.nextEdgeId + 1) := by
      apply List.filter_eq_self.mpr
      intro x hx
      have hm := arg_edges_spec_mem hx
      simp only [Bool.and_eq_true, decide_eq_true_eq]
      exact ⟨hm.1, hm.2⟩
    rw [h1, List.nil_append, arg_edges_spec_map]

/-! ## Witnesses: the hypothesis-bearing claim theorems applied at concrete inputs -/

def c1_rel : GNode :=
  { ntype := "relation".toList, uri := "/relation/IsA".toList,
    name := some "IsA".toList, nid := 0 }

def c1_dog : GNode :=
  { ntype := "concept".toList, uri := "/concept/en/dog".toList,
    language := some "en".toList, name := some "dog".toList, score := some 0, nid := 1 }

def c1_animal : GNode :=
  { ntype := "concept".toList, uri := "/concept/en/animal".toList,
    language := some "en".toList, name := some "animal".toList, score := some 0,
    nid := 2 }

def c1_graph : Graph :=
  { nodes := [c1_rel, c1_dog, c1_animal], edges := [], nextNodeId := 3, nextEdgeId := 0 }

theorem C1_assertion_get_or_create_witness :
    ∃ (a : GNode) (g1 : Graph),
      get_or_create_assertion 0 (.byUri "/relation/IsA".toList)
          [.byNode c1_dog, .byId 2] [] c1_graph = .ok (a, g1) ∧
      a.uri = make_assertion_uri c1_rel.uri
        ([c1_dog, c1_animal].map (fun n => n.uri)) ∧
      a.ntype = "assertion".toList ∧
      get_or_create_assertion 0 (.byUri "/relation/IsA".toList)
          [.byNode c1_dog, .byId 2] [] g1 = .ok (a, g1) ∧
      g1.nodes.filter (fun n => decide (n.uri = a.uri)) = [a] ∧
      (g1.edges.filter (fun e => decide (e.etype = "relation".toList) &&
          decide (e.startId = a.nid))).map (fun e => e.endId) = [c1_rel.nid] ∧
      (g1.edges.filter (fun e => decide (e.etype = "arg".toList) &&
          decide (e.startId = a.nid))).map (fun e => (e.position, e.endId)) =
        arg_pairs [c1_dog, c1_animal] 0 := by
  obtain ⟨a, g1, h1, h2, h3, _, h5, h6, h7, h8⟩ :=
    C1_assertion_get_or_create c1_graph 0 (.byUri "/relation/IsA".toList)
      [.byNode c1_dog, .byId 2] [] [] c1_rel [c1_dog, c1_animal]
      (by constructor <;> decide) (by decide) (by decide) (by decide)
  exact ⟨a, g1, h1, h2, h3, h5, h6, h7, h8⟩

theorem C2_roundtrip_space_free_witness :
    uri_piece_to_list (list_to_uri_piece
        ["/relation/IsA".toList, "/concept/en/dog".toList]) =
      .ok ["/relation/IsA".toList, "/concept/en/dog".toList] :=
  C2_roundtrip_space_free _ (by decide)

def c4_rel : GNode :=
  { ntype := "relation".toList, uri := "/relation/IsA".toList,
    name := some "IsA".toList, nid := 0 }

def c4_s : GNode :=
  { ntype := "assertion".toList, uri := "/assertion/s".toList, score := some 0, nid := 1 }

def c4_t : GNode :=
  { ntype := "assertion".toList, uri := "/assertion/t".toList, score := some 0, nid := 2 }

def c4_x : GNode :=
  { ntype := "concept".toList, uri := "/concept/en/x".toList, nid := 3 }

def c4_y : GNode :=
  { ntype := "concept".toList, uri := "/concept/en/y".toList, nid := 4 }

def c4_z : GNode :=
  { ntype := "concept".toList, uri := "/concept/en/z".toList, nid := 5 }

/-- Two stored assertions, each with an outgoing `relation` edge and
positioned `arg` edges — well-formed input on which `derive_normalized`
with positive weight still crashes at `rel_edge.end`. -/
def c4_graph : Graph :=
  { nodes := [c4_rel, c4_s, c4_t, c4_x, c4_y, c4_z],
    edges := [ { eid := 0, etype := "relation".toList, startId := 1, endId := 0,
                 nodes := (1, 0) },
               { eid := 1, etype := "relation".toList, startId := 2, endId := 0,
                 nodes := (2, 0) },
               { eid := 2, etype := "arg".toList, startId := 1, endId := 3,
                 position := some 1, nodes := (1, 3) },
               { eid := 3, etype := "arg".toList, startId := 1, endId := 4,
                 position := some 2, nodes := (1, 4) },
               { eid := 4, etype := "arg".toList, startId := 2, endId := 5,
                 position := some 1, nodes := (2, 5) } ],
    nextNodeId := 6, nextEdgeId := 5 }

theorem C4_derive_normalized_attribute_error_witness :
    derive_normalized (.byNode c4_s) (.byNode c4_t) 0 c4_graph =
      .error (.assertionError "weight".toList) ∧
    get_rel_and_args (.byNode c4_s) c4_graph =
      .error (.attributeError "end".toList) ∧
    derive_normalized (.byNode c4_s) (.byNode c4_t) 2 c4_graph ≠
      .ok (⟨0, "normalized".toList, 1, 2, none, none, (1, 2)⟩, c4_graph) ∧
    derive_normalized (.byNode c4_s) (.byNode c4_t) 2 c4_graph =
      .error (.attributeError "end".toList) :=
  ⟨(C4_derive_normalized_attribute_error c4_graph (.byNode c4_s) (.byNode c4_t) 0).1
     (le_refl 0),
   (C4_derive_normalized_attribute_error c4_graph (.byNode c4_s) (.byNode c4_t) 0).2.1
     c4_s rfl,
   (C4_derive_normalized_attribute_error c4_graph (.byNode c4_s) (.byNode c4_t)
     2).2.2 (by norm_num) _,
   by decide⟩

theorem C6_conjunction_order_independent_witness :
    get_or_create_conjunction
        [.byUri "/concept/en/a".toList, .byUri "/concept/en/b".toList] empty_graph =
      get_or_create_conjunction
        [.byUri "/concept/en/b".toList, .byUri "/concept/en/a".toList] empty_graph :=
  C6_conjunction_order_independent empty_graph _ _
    ["/concept/en/a".toList, "/concept/en/b".toList]
    ["/concept/en/b".toList, "/concept/en/a".toList]
    (by decide) (by decide) (by decide)

def c7_s : GNode :=
  { ntype := "assertion".toList, uri := "/assertion/w1".toList, score := some 0, nid := 0 }

def c7_t : GNode :=
  { ntype := "assertion".toList, uri := "/assertion/w2".toList, score := some 0, nid := 1 }

theorem C7_justify_weight_verbatim_witness :
    ∃ (e : GEdge) (g' : Graph),
      justify (.byNode c7_s) (.byNode c7_t) 5 empty_graph = .ok (e, g') ∧
      e.etype = "justifies".toList ∧
      (get_edge "justifies".toList (.byNode c7_s) (.byNode c7_t) empty_graph =
          .ok none →
        e.weight = some 5 ∧ e.nodes = (c7_s.nid, c7_t.nid) ∧
        g' = { empty_graph with
               edges := empty_graph.edges ++ [e],
               nextEdgeId := empty_graph.nextEdgeId + 1 }) ∧
      (∀ e0, get_edge "justifies".toList (.byNode c7_s) (.byNode c7_t) empty_graph =
          .ok (some e0) → e = e0 ∧ g' = empty_graph) :=
  C7_justify_weight_verbatim empty_graph c7_s c7_t 5

theorem C8_recency_window_witness :
    gw_get_node "/x".toList (gw_run_creates []) = none ∧
    gw_get_or_create_node 1 "/x".toList [] (gw_run_creates []) =
      gw_create_node_by_type 0 "/x".toList [] (gw_run_creates []) :=
  C8_recency_window.2.1 [] "/x".toList 0 [] (by decide)

theorem C9_concept_slash_escape_witness :
    (concept_uri "en".toList "big/dog".toList []).count '/' = 3 ∧
    concept_uri "en".toList "big/dog".toList [] =
      "/concept/".toList ++ "en".toList ++ '/' ::
        ("big/dog".toList.map (fun c => if c = '/' then '_' else c)) := by
  have h := C9_concept_slash_escape "en".toList "big/dog".toList [] (by decide)
  exact ⟨h.1, h.2.2.1⟩
